import Mathlib

/-!
Verification of the ecomista field-mapping engine
(`src/ecomista/utils/field_mapper.py`, `src/ecomista/utils/transformers.py`)
against its natural-language specification.

The Python code is shallowly embedded: documents become a `Value` tree,
dictionaries become association lists, mutation becomes explicit state
passing, and fallible operations return `Except PyErr`.  Host-language
facilities that are external to the repository (the `json` module, the
`re` module, `frappe.utils` coercions, and the Python expression
evaluator used by `eval`) are modelled by concrete executable functions
capturing the behaviour the engine relies on.
-/

/-- A Python/JSON value tree: `None`, booleans, numbers, strings, lists
and dicts.  Numbers are modelled as integers (no claim under scrutiny
depends on fractional arithmetic). -/
inductive Value where
  | null : Value
  | bool (b : Bool) : Value
  | int (n : Int) : Value
  | str (s : String) : Value
  | arr (xs : List Value) : Value
  | obj (kvs : List (String × Value)) : Value

/-- A document root: a Python dict, keyed by strings in insertion order. -/
abbrev Doc := List (String × Value)

/-- Python truthiness of a value (`bool(v)`). -/
def Value.truthy : Value → Bool
  | .null => false
  | .bool b => b
  | .int n => n != 0
  | .str s => !s.isEmpty
  | .arr xs => !xs.isEmpty
  | .obj kvs => !kvs.isEmpty

/-- The engine's emptiness test `value is None or value == ""`. -/
def isEmptyVal : Value → Bool
  | .null => true
  | .str s => s.isEmpty
  | _ => false

/-- `dict.get`: first binding for a key, if any. -/
def assocGet : List (String × Value) → String → Option Value
  | [], _ => none
  | (k, v) :: rest, key => if k = key then some v else assocGet rest key

/-- `dict[key] = value`: replace in place if present, else append. -/
def assocSet : List (String × Value) → String → Value → List (String × Value)
  | [], key, value => [(key, value)]
  | (k, v) :: rest, key, value =>
      if k = key then (k, value) :: rest else (k, v) :: assocSet rest key value

/-- Python `str.isdigit()`: non-empty and all decimal digits. -/
def strIsNat (s : String) : Bool :=
  !s.isEmpty && s.data.all Char.isDigit

/-- Decimal value of a digit list (accumulator form). -/
def charsToNat (acc : Nat) : List Char → Nat
  | [] => acc
  | c :: cs => charsToNat (acc * 10 + (c.toNat - '0'.toNat)) cs

/-- `int(s)` for an all-digit string. -/
def strToNat (s : String) : Nat :=
  charsToNat 0 s.data

/-- `int(s)` for an optionally signed digit string, `0` on failure
(the failure branch models `frappe.utils.cint` swallowing the
exception). -/
def strToInt (s : String) : Int :=
  match s.data with
  | '-' :: ds => if !ds.isEmpty && ds.all Char.isDigit then -(charsToNat 0 ds : Int) else 0
  | ds => if !ds.isEmpty && ds.all Char.isDigit then (charsToNat 0 ds : Int) else 0

/-- `path.split(".")`, over the character list. -/
def splitDotAux : List Char → List Char → List String
  | [], acc => [String.mk acc.reverse]
  | c :: cs, acc =>
    if c = '.' then String.mk acc.reverse :: splitDotAux cs []
    else splitDotAux cs (c :: acc)

/-- `path.split(".")`. -/
def splitPath (s : String) : List String :=
  splitDotAux s.data []

/-- Does the first list start with the second?  Returns the remainder. -/
def dropPrefixCs : List Char → List Char → Option (List Char)
  | cs, [] => some cs
  | [], _ :: _ => none
  | c :: cs, p :: ps => if c = p then dropPrefixCs cs ps else none

/-- `s.split(sep)` for a non-empty separator, fuel-indexed so it
computes by reduction. -/
def splitSepAux (sep : List Char) : Nat → List Char → List Char → List String
  | _, [], acc => [String.mk acc.reverse]
  | 0, cs, acc => [String.mk (acc.reverse ++ cs)]
  | fuel + 1, c :: cs, acc =>
    match dropPrefixCs (c :: cs) sep with
    | some rest => String.mk acc.reverse :: splitSepAux sep fuel rest []
    | none => splitSepAux sep fuel cs (c :: acc)

/-- Python `s.split(sep)` (non-empty separator). -/
def pySplit (s sep : String) : List String :=
  splitSepAux sep.data (s.data.length + 1) s.data []

/-- Python `sub in s` substring containment. -/
def pyContainsSub (s sub : String) : Bool :=
  if sub.isEmpty then true else (pySplit s sub).length != 1

/-- Python whitespace for `str.strip()`. -/
def isPyWs (c : Char) : Bool :=
  c = ' ' || c = '\t' || c = '\n' || c = '\r' || c = '\x0b' || c = '\x0c'

/-- Python `s.strip()`. -/
def pyStrip (s : String) : String :=
  String.mk (((s.data.dropWhile isPyWs).reverse.dropWhile isPyWs).reverse)

/-- Python `s.lower()`. -/
def pyLower (s : String) : String :=
  String.mk (s.data.map Char.toLower)

/-- Python `s.upper()`. -/
def pyUpper (s : String) : String :=
  String.mk (s.data.map Char.toUpper)

/-- Python `s.startswith(p)`. -/
def startsWithCs : List Char → List Char → Bool
  | _, [] => true
  | [], _ :: _ => false
  | c :: cs, p :: ps => c = p && startsWithCs cs ps

/-- Python `s.startswith(p)`. -/
def pyStartsWith (s p : String) : Bool :=
  startsWithCs s.data p.data

/-! ## Path addressing (`FieldMapper._get_nested_value` / `_set_nested_value`) -/

/-- Errors surfaced by the embedded Python code.  `frappeThrow` models
`frappe.throw` (the configuration errors); the others model uncaught
host-language exceptions. -/
inductive PyErr where
  | frappeThrow (msg : String) : PyErr
  | typeError : PyErr
  | attributeError : PyErr
  | valueError : PyErr
  | indexError : PyErr
deriving Repr, DecidableEq

/-- The loop of `_get_nested_value`: walk the remaining path segments.
A dict looks the key up (missing key yields `None`); a list indexes when
the segment is all digits (out of range yields `None`); anything else
returns `None`; a `None` mid-walk short-circuits. -/
def getLoop : Value → List String → Value
  | current, [] => current
  | current, k :: rest =>
    let next : Value :=
      match current with
      | .obj kvs => (assocGet kvs k).getD .null
      | .arr xs => if strIsNat k then (xs.get? (strToNat k)).getD .null else .null
      | _ => .null
    match next with
    | .null => .null
    | v => getLoop v rest

/-- `_get_nested_value(data, path)`; the guard `if not path or not data`
returns `None` for an empty path or a falsy root. -/
def getNestedV (data : Value) (path : String) : Value :=
  if path.isEmpty || !data.truthy then .null
  else getLoop data (splitPath path)

/-- `_get_nested_value` called with a path taken from configuration data
(`transform_default`'s `field`, `transform_concat`'s entries): a falsy
path yields `None` before `path.split` runs; a truthy non-string path
makes `path.split(".")` raise `AttributeError`. -/
def getNestedByValuePath (data : Value) (path : Value) : Except PyErr Value :=
  match path with
  | .str s => .ok (getNestedV data s)
  | v => if v.truthy then .error .attributeError else .ok .null

/-- The loop of `_set_nested_value`.  For each intermediate segment the
code runs `if key not in current: current[key] = [] if next.isdigit()
else {}` and then `current = current[key]`; both operations raise
`TypeError` unless `current` is a dict (string containment/indexing on a
list or scalar fails).  At the final segment a list is grown with empty
dicts up to the index and assigned when the segment is numeric,
otherwise assignment requires a dict. -/
def setLoop : Value → List String → Value → Except PyErr Value
  | _, [], _ => .error .typeError
  | current, [k], value =>
    match current with
    | .obj kvs => .ok (.obj (assocSet kvs k value))
    | .arr xs =>
      if strIsNat k then
        let idx := strToNat k
        let grown := xs ++ List.replicate (idx + 1 - xs.length) (Value.obj [])
        .ok (.arr (grown.set idx value))
      else .error .typeError
    | _ => .error .typeError
  | current, k :: k2 :: rest, value =>
    match current with
    | .obj kvs =>
      let child :=
        match assocGet kvs k with
        | some v => v
        | none => if strIsNat k2 then Value.arr [] else Value.obj []
      match setLoop child (k2 :: rest) value with
      | .ok c => .ok (.obj (assocSet kvs k c))
      | .error e => .error e
    | _ => .error .typeError

/-- `_set_nested_value(data, path, value)` on an arbitrary root value
(rows of a child target array need not be dicts).  An empty path is a
no-op. -/
def setNestedV (data : Value) (path : String) (value : Value) : Except PyErr Value :=
  if path.isEmpty then .ok data
  else setLoop data (splitPath path) value

/-- `_set_nested_value` on a document root. -/
def setNested (data : Doc) (path : String) (value : Value) : Except PyErr Doc :=
  match setNestedV (.obj data) path value with
  | .ok (.obj kvs) => .ok kvs
  | .ok _ => .error .typeError
  | .error e => .error e

/-- In-place mutation of the value an alias obtained by
`_get_nested_value` points to (used by `_apply_child_mapping`, which
pads and fills the target array through the reference `get` returned):
follow `getLoop`'s walk and replace the value found at its end. -/
def modifyAtGet : Value → List String → Value → Option Value
  | _, [], w => some w
  | current, k :: rest, w =>
    match current with
    | .obj kvs =>
      match assocGet kvs k with
      | none => none
      | some .null => none
      | some v => (modifyAtGet v rest w).map (fun v' => .obj (assocSet kvs k v'))
    | .arr xs =>
      if strIsNat k then
        match xs.get? (strToNat k) with
        | none => none
        | some .null => none
        | some v => (modifyAtGet v rest w).map (fun v' => .arr (xs.set (strToNat k) v'))
      else none
    | _ => none

/-- Mutation through a `_get_nested_value` alias at document level; when
the walk cannot be replayed (empty path, empty root) the document is
unchanged, matching Python where the mutated list is simply unreachable
from the document. -/
def modifyAtGetTop (d : Doc) (path : String) (w : Value) : Doc :=
  if path.isEmpty || d.isEmpty then d
  else
    match modifyAtGet (.obj d) (splitPath path) w with
    | some (.obj kvs) => kvs
    | _ => d

/-! ## Host-language string coercions (`frappe.utils`, external library) -/

mutual
/-- Python `repr` of a value (a model of the host `str`/`repr` pair used
by `cstr`; only its totality and determinism matter here). -/
def pyRepr : Value → String
  | .null => "None"
  | .bool b => if b then "True" else "False"
  | .int n => toString n
  | .str s => "\x27" ++ s ++ "\x27"
  | .arr xs => "[" ++ pyReprList xs ++ "]"
  | .obj kvs => "\x7b" ++ pyReprObj kvs ++ "\x7d"

def pyReprList : List Value → String
  | [] => ""
  | [v] => pyRepr v
  | v :: rest => pyRepr v ++ ", " ++ pyReprList rest

def pyReprObj : List (String × Value) → String
  | [] => ""
  | [(k, v)] => "\x27" ++ k ++ "\x27: " ++ pyRepr v
  | (k, v) :: rest => "\x27" ++ k ++ "\x27: " ++ pyRepr v ++ ", " ++ pyReprObj rest
end

/-- `frappe.utils.cstr`: `str(value)` with `None` becoming `""`. -/
def cstr : Value → String
  | .null => ""
  | .str s => s
  | v => pyRepr v

/-- `frappe.utils.cint`: permissive integer coercion, `0` on failure. -/
def cint : Value → Int
  | .null => 0
  | .bool b => if b then 1 else 0
  | .int n => n
  | .str s => strToInt s
  | _ => 0

/-- `frappe.utils.flt`: permissive numeric coercion; floats are modelled
as integers (no claim depends on fractional arithmetic). -/
def fltV : Value → Int := cint

/-! ## JSON parsing (`json.loads`, used by `_parse_config`) -/

/-- Skip JSON whitespace. -/
def jsonWs (cs : List Char) : List Char :=
  cs.dropWhile (fun c => c = ' ' || c = '\t' || c = '\n' || c = '\r')

/-- JSON string literal body up to the closing quote.  Escape sequences
are not modelled: they fail the parse, which `_parse_config` treats
like any other malformed config. -/
def jsonStr : List Char → Option (String × List Char)
  | [] => none
  | c :: rest =>
    if c = '"' then some ("", rest)
    else if c = '\\' then none
    else
      match jsonStr rest with
      | some (s, rem) => some (String.singleton c ++ s, rem)
      | none => none

/-- Leading decimal digits of the input. -/
def jsonDigits (cs : List Char) : List Char × List Char :=
  (cs.takeWhile Char.isDigit, cs.dropWhile Char.isDigit)

mutual
/-- Fuel-indexed recursive-descent JSON parser, a model of Python's
`json.loads`.  Fractional/exponent number forms also fail the parse
(the engine's configs in scope are objects of strings, integers,
booleans and nested containers). -/
def parseJ : Nat → List Char → Except Unit (Value × List Char)
  | 0, _ => .error ()
  | fuel + 1, cs =>
    match jsonWs cs with
    | 'n' :: 'u' :: 'l' :: 'l' :: rest => .ok (.null, rest)
    | 't' :: 'r' :: 'u' :: 'e' :: rest => .ok (.bool true, rest)
    | 'f' :: 'a' :: 'l' :: 's' :: 'e' :: rest => .ok (.bool false, rest)
    | '"' :: rest =>
      match jsonStr rest with
      | some (s, rem) => .ok (.str s, rem)
      | none => .error ()
    | '[' :: rest =>
      match jsonWs rest with
      | ']' :: rem => .ok (.arr [], rem)
      | cs2 => parseElems fuel cs2 []
    | '\x7b' :: rest =>
      match jsonWs rest with
      | '\x7d' :: rem => .ok (.obj [], rem)
      | cs2 => parseMembers fuel cs2 []
    | '-' :: rest =>
      match jsonDigits rest with
      | ([], _) => .error ()
      | (ds, rem) => .ok (.int (-(Int.ofNat (strToNat (String.mk ds)))), rem)
    | c :: rest =>
      if c.isDigit then
        match jsonDigits (c :: rest) with
        | (ds, rem) => .ok (.int (Int.ofNat (strToNat (String.mk ds))), rem)
      else .error ()
    | [] => .error ()

def parseElems : Nat → List Char → List Value → Except Unit (Value × List Char)
  | 0, _, _ => .error ()
  | fuel + 1, cs, acc =>
    match parseJ fuel cs with
    | .error e => .error e
    | .ok (v, rest) =>
      match jsonWs rest with
      | ',' :: rem => parseElems fuel rem (acc ++ [v])
      | ']' :: rem => .ok (.arr (acc ++ [v]), rem)
      | _ => .error ()

def parseMembers : Nat → List Char → List (String × Value) →
    Except Unit (Value × List Char)
  | 0, _, _ => .error ()
  | fuel + 1, cs, acc =>
    match jsonWs cs with
    | '"' :: rest =>
      match jsonStr rest with
      | none => .error ()
      | some (k, rem) =>
        match jsonWs rem with
        | ':' :: rem2 =>
          match parseJ fuel rem2 with
          | .error e => .error e
          | .ok (v, rest2) =>
            match jsonWs rest2 with
            | ',' :: rem3 => parseMembers fuel rem3 (acc ++ [(k, v)])
            | '\x7d' :: rem3 => .ok (.obj (acc ++ [(k, v)]), rem3)
            | _ => .error ()
        | _ => .error ()
    | _ => .error ()
end

/-- `json.loads`: parse the whole input, allowing trailing whitespace. -/
def jsonLoads (s : String) : Except Unit Value :=
  match parseJ (2 * s.data.length + 2) s.data with
  | .ok (v, rest) => if (jsonWs rest).isEmpty then .ok v else .error ()
  | .error e => .error e

/-- `FieldMapper._parse_config`: absent or falsy config parses to an
empty dict; a `json.loads` failure degrades to an empty dict.  Note the
parse result is returned as-is, whatever JSON type it has. -/
def parseConfig (config : Option String) : Value :=
  match config with
  | none => .obj []
  | some s =>
    if s.isEmpty then .obj []
    else
      match jsonLoads s with
      | .ok v => v
      | .error _ => .obj []

/-! ## Host environment and the expression evaluator -/

/-- Ambient host state reachable from the transformers: the clock
(`nowdate`/`now_datetime`), the `frappe` module bound into expression
contexts, and the frappe database (the Entity Resolver consumed by
Lookup: `frappe.get_value` and document creation). -/
structure Env where
  nowdate : Value
  now_datetime : Value
  frappeMod : String → Value
  getValue : Value → List (Value × Value) → Value → Value
  createDoc : Value → List (Value × Value) → Value → Except Unit Value

/-- Model of the host expression evaluator
`eval(e, \x7b"__builtins__": \x7b\x7d\x7d, ctx)` on the expression forms the
engine's configs exercise.  `valB` is the optional `value` binding;
`nowB`/`frappeB` say whether the date helpers and the `frappe` module
are bound in `ctx` (the call sites bind different contexts).  Anything
unrecognised raises, modelling `NameError`/`SyntaxError`/arbitrary
evaluation failures. -/
def pyEval (env : Env) (valB : Option Value) (nowB frappeB : Bool)
    (source : Value) (e : String) : Except Unit Value :=
  if e = "True" then .ok (.bool true)
  else if e = "False" then .ok (.bool false)
  else if e = "None" then .ok .null
  else if e = "value" then (match valB with | some v => .ok v | none => .error ())
  else if e = "source" then .ok source
  else if e = "nowdate()" then (if nowB then .ok env.nowdate else .error ())
  else if e = "now_datetime()" then (if nowB then .ok env.now_datetime else .error ())
  else if pyStartsWith e "frappe" then (if frappeB then .ok (env.frappeMod e) else .error ())
  else if strIsNat e then .ok (.int (strToNat e))
  else .error ()

/-- An expression string is time/host-independent: not a `now*` helper
call and not reaching into the `frappe` module. -/
def exprDet (e : String) : Bool :=
  (e != "nowdate()") && (e != "now_datetime()") && !pyStartsWith e "frappe"

mutual
/-- Every string inside a config value is a deterministic expression
(conservative over all the positions expressions can occur in). -/
def valueStringsDet : Value → Bool
  | .str s => exprDet s
  | .arr xs => listStringsDet xs
  | .obj kvs => objStringsDet kvs
  | _ => true

def listStringsDet : List Value → Bool
  | [] => true
  | v :: rest => valueStringsDet v && listStringsDet rest

def objStringsDet : List (String × Value) → Bool
  | [] => true
  | (_, v) :: rest => valueStringsDet v && objStringsDet rest
end

/-! ## Config access -/

/-- `config.get(key, dflt)`: dict lookup; attribute access on a non-dict
raises `AttributeError`. -/
def configGet (config : Value) (key : String) (dflt : Value) : Except PyErr Value :=
  match config with
  | .obj kvs => .ok ((assocGet kvs key).getD dflt)
  | _ => .error .attributeError

/-- Python `key in config`: key test on dicts, substring test on
strings, membership on lists, `TypeError` otherwise. -/
def configHasKey (config : Value) (key : String) : Except PyErr Bool :=
  match config with
  | .obj kvs => .ok ((assocGet kvs key).isSome)
  | .str s => .ok (pyContainsSub s key)
  | .arr xs => .ok (xs.any (fun v => match v with | .str t => t = key | _ => false))
  | _ => .error .typeError

/-- Python iteration (`for x in v`): lists yield elements, strings yield
characters, dicts yield their keys; other values raise `TypeError`. -/
def pyIterate : Value → Except PyErr (List Value)
  | .arr xs => .ok xs
  | .str s => .ok (s.data.map (fun c => .str (String.singleton c)))
  | .obj kvs => .ok (kvs.map (fun kv => .str kv.1))
  | _ => .error .typeError

/-- `sep.join(strings)`. -/
def joinSep (sep : String) : List String → String
  | [] => ""
  | [s] => s
  | s :: rest => s ++ sep ++ joinSep sep rest

/-- Python `s.split(None)`: split on whitespace runs, dropping empties. -/
def wsSplitAux : List Char → List Char → List String
  | [], [] => []
  | [], acc => [String.mk acc.reverse]
  | c :: cs, acc =>
    if isPyWs c then
      (if acc.isEmpty then wsSplitAux cs [] else String.mk acc.reverse :: wsSplitAux cs [])
    else wsSplitAux cs (c :: acc)

/-! ## Models of external date parsing (`frappe.utils` / `datetime`) -/

/-- Model of `frappe.utils.getdate` (external library): a pure,
deterministic function of the input that fails on unparseable values. -/
def getdateV : Value → Except Unit Value
  | .str s => .ok (.str ("date:" ++ s))
  | _ => .error ()

/-- Model of `frappe.utils.get_datetime` (external library). -/
def getDatetimeV : Value → Except Unit Value
  | .str s => .ok (.str ("datetime:" ++ s))
  | _ => .error ()

/-- Model of `datetime.strptime(s, fmt)` (external library). -/
def strptimeV (s fmt : String) : Except Unit Value :=
  if s.isEmpty then .error () else .ok (.str ("strptime:" ++ fmt ++ ":" ++ s))

/-! ## Built-in transformers (`transformers.py`) -/

/-- `transform_direct`: value as-is (default when empty), with optional
strip/lower/upper for strings. -/
def transform_direct (env : Env) (value config default source_data : Value) :
    Except PyErr Value := do
  let _ := env
  let _ := source_data
  if isEmptyVal value then return default
  match value with
  | .str s => do
    let stripFlag ← configGet config "strip" (.bool false)
    let s1 := if stripFlag.truthy then pyStrip s else s
    let lowerFlag ← configGet config "lower" (.bool false)
    let s2 := if lowerFlag.truthy then pyLower s1 else s1
    let upperFlag ← configGet config "upper" (.bool false)
    let s3 := if upperFlag.truthy then pyUpper s2 else s2
    return .str s3
  | v => return v

/-- `transform_lookup`: query the frappe database (the Entity Resolver)
for a related value; optionally create the document when missing. -/
def transform_lookup (env : Env) (value config default source_data : Value) :
    Except PyErr Value := do
  let _ := source_data
  if isEmptyVal value then return default
  let doctype ← configGet config "doctype" .null
  if !doctype.truthy then return default
  let matchField ← configGet config "match_field" (.str "name")
  let returnField ← configGet config "return_field" (.str "name")
  let extra ← configGet config "filters" (.obj [])
  let filters : List (Value × Value) ←
    match extra with
    | .obj kvs => pure ((matchField, value) :: kvs.map (fun kv => (Value.str kv.1, kv.2)))
    | _ => throw .typeError
  let result := env.getValue doctype filters returnField
  if result.truthy then return result
  let cim ← configGet config "create_if_missing" .null
  if cim.truthy then
    let cv ← configGet config "create_values" (.obj [])
    match cv with
    | .obj kvs =>
      match env.createDoc doctype ((matchField, value) :: kvs.map (fun kv => (Value.str kv.1, kv.2))) returnField with
      | .ok r => return r
      | .error _ => return default
    | _ => throw .typeError
  else return default

/-- `transform_formula`: evaluate the configured expression with
`value`, `source`, the date helpers and `frappe` bound; a `None` result
or an evaluation error yields the default. -/
def transform_formula (env : Env) (value config default source_data : Value) :
    Except PyErr Value := do
  let expression ← configGet config "expression" .null
  if !expression.truthy then
    return (match value with | .null => default | v => v)
  match expression with
  | .str e =>
    match pyEval env (some value) true true source_data e with
    | .ok r => return (match r with | .null => default | v => v)
    | .error _ => return default
  | _ => return default

/-- `transform_cast`: type coercion; any failure inside the conversion
degrades to the default, an unknown cast type passes the value
through. -/
def transform_cast (env : Env) (value config default source_data : Value) :
    Except PyErr Value := do
  let _ := env
  let _ := source_data
  if isEmptyVal value then return default
  let castType ← configGet config "type" (.str "string")
  match castType with
  | .str "int" => return .int (cint value)
  | .str "float" => return .int (fltV value)
  | .str "string" => return .str (cstr value)
  | .str "bool" =>
    match value with
    | .bool b => return .bool b
    | .str s =>
      return .bool (pyLower s = "true" || pyLower s = "1" || pyLower s = "yes" || pyLower s = "on")
    | v => return .bool v.truthy
  | .str "date" => do
    let fmt ← configGet config "format" .null
    match fmt, value with
    | .str f, .str s =>
      if !f.isEmpty then
        (match strptimeV s f with | .ok d => pure d | .error _ => pure default)
      else (match getdateV value with | .ok d => pure d | .error _ => pure default)
    | _, _ => (match getdateV value with | .ok d => pure d | .error _ => pure default)
  | .str "datetime" => do
    let fmt ← configGet config "format" .null
    match fmt, value with
    | .str f, .str s =>
      if !f.isEmpty then
        (match strptimeV s f with | .ok d => pure d | .error _ => pure default)
      else (match getDatetimeV value with | .ok d => pure d | .error _ => pure default)
    | _, _ => (match getDatetimeV value with | .ok d => pure d | .error _ => pure default)
  | .str "json" =>
    match value with
    | .str s => (match jsonLoads s with | .ok v => pure v | .error _ => pure default)
    | v => pure v
  | .str "list" =>
    match value with
    | .arr xs => pure (.arr xs)
    | .str s => do
      let sep ← configGet config "separator" (.str ",")
      match sep with
      | .str sp =>
        if sp.isEmpty then pure default
        else pure (.arr ((pySplit s sp).map (fun t => .str (pyStrip t))))
      | _ => pure default
    | v => pure (.arr [v])
  | _ => return value

/-- The default-resolution chain of `transform_default`: literal config
`value`, then same-document `field` reference, then `expression`, else
the rule default. -/
def defaultResolve (env : Env) (config default source_data : Value) :
    Except PyErr Value := do
  let hv ← configHasKey config "value"
  if hv then
    match config with
    | .obj kvs => return ((assocGet kvs "value").getD .null)
    | _ => throw .typeError
  else
  let hf ← configHasKey config "field"
  if hf then
    match config with
    | .obj kvs => getNestedByValuePath source_data ((assocGet kvs "field").getD .null)
    | _ => throw .typeError
  else
  let he ← configHasKey config "expression"
  if he then
    match config with
    | .obj kvs =>
      match (assocGet kvs "expression").getD .null with
      | .str e =>
        match pyEval env none true true source_data e with
        | .ok r => return r
        | .error _ => return default
      | _ => return default
    | _ => throw .typeError
  else return default

/-- `transform_default`: keep a present, non-empty value unless a
config `condition` evaluates truthy (then fall through to the default
chain); evaluation failures keep the value. -/
def transform_default (env : Env) (value config default source_data : Value) :
    Except PyErr Value := do
  if !(isEmptyVal value) then
    let condition ← configGet config "condition" .null
    if condition.truthy then
      match condition with
      | .str c =>
        match pyEval env (some value) false false source_data c with
        | .ok r =>
          if r.truthy then defaultResolve env config default source_data
          else return value
        | .error _ => return value
      | _ => return value
    else return value
  else defaultResolve env config default source_data

/-- `transform_concat`: join the non-empty values of the configured
fields (each path-resolved from the rule's scope). -/
def transform_concat (env : Env) (value config default source_data : Value) :
    Except PyErr Value := do
  let _ := env
  let _ := value
  let fields ← configGet config "fields" (.arr [])
  let separator ← configGet config "separator" (.str " ")
  let pfx ← configGet config "prefix" (.str "")
  let sfx ← configGet config "suffix" (.str "")
  let items ← pyIterate fields
  let values ← items.foldlM
    (fun (acc : List String) f => do
      let fv ← getNestedByValuePath source_data f
      if !(isEmptyVal fv) then pure (acc ++ [cstr fv]) else pure acc)
    ([] : List String)
  if values.isEmpty then return default
  match separator with
  | .str sp =>
    match pfx, sfx with
    | .str p, .str sx => return .str (p ++ joinSep sp values ++ sx)
    | _, _ => throw .typeError
  | _ => throw .attributeError

/-- `transform_split`: split the stringified value and return either all
parts or the part at the configured index; out-of-range (including
negative) indices yield the default. -/
def transform_split (env : Env) (value config default source_data : Value) :
    Except PyErr Value := do
  let _ := env
  let _ := source_data
  if isEmptyVal value then return default
  let separator ← configGet config "separator" (.str " ")
  let index ← configGet config "index" (.int 0)
  let parts ←
    match separator with
    | .str sp =>
      if sp.isEmpty then throw .valueError else pure (pySplit (cstr value) sp)
    | .null => pure (wsSplitAux (cstr value).data [])
    | _ => throw .typeError
  let joinFlag ← configGet config "join" .null
  if joinFlag.truthy then return .arr (parts.map .str)
  let idx : Int ←
    match index with
    | .int i => pure i
    | .bool b => pure (if b then 1 else 0)
    | _ => throw .typeError
  if 0 ≤ idx ∧ idx < (parts.length : Int) then
    return (match parts.get? idx.toNat with | some p => .str p | none => default)
  else return default

/-- `transform_map`: dictionary lookup of the stringified value,
optionally case-insensitively; misses yield the default. -/
def transform_map (env : Env) (value config default source_data : Value) :
    Except PyErr Value := do
  let _ := env
  let _ := source_data
  match value with
  | .null => return default
  | _ => do
    let valueMap ← configGet config "mapping" (.obj [])
    let ci ← configGet config "case_insensitive" (.bool false)
    let lookupKey := cstr value
    if ci.truthy then
      match valueMap with
      | .obj kvs =>
        return ((assocGet ((kvs.map (fun kv => (pyLower kv.1, kv.2))).reverse)
          (pyLower lookupKey)).getD default)
      | _ => throw .attributeError
    else
      match valueMap with
      | .obj kvs => return ((assocGet kvs lookupKey).getD default)
      | _ => throw .attributeError

/-- Model of the host regex library on the fragment the engine relies
on: patterns are matched as literal substrings, and a pattern containing
a backslash stands for an invalid pattern (raises `re.error`).  Only the
control flow around these calls belongs to the repository. -/
def reValid (pat : String) : Bool :=
  !(pat.data.contains '\\')

/-- Model of `re.search` returning the matched text. -/
def reFind (pat s : String) : Option String :=
  if pyContainsSub s pat then some pat else none

/-- `transform_regex`: extract / substitute / match / search; `re.error`
is caught and yields the default. -/
def transform_regex (env : Env) (value config default source_data : Value) :
    Except PyErr Value := do
  let _ := env
  let _ := source_data
  if isEmptyVal value then return default
  let pattern ← configGet config "pattern" .null
  if !pattern.truthy then return value
  let operation ← configGet config "operation" (.str "extract")
  let strValue := cstr value
  match pattern with
  | .str pat =>
    if !reValid pat then return default
    else
      match operation with
      | .str "extract" =>
        match reFind pat strValue with
        | some m => do
          let group ← configGet config "group" (.int 0)
          match group with
          | .int 0 => return .str m
          | .bool false => return .str m
          | .int _ => throw .indexError
          | .bool true => throw .indexError
          | _ => throw .indexError
        | none => return default
      | .str "sub" => do
        let repl ← configGet config "replacement" (.str "")
        match repl with
        | .str r => return .str (joinSep r (pySplit strValue pat))
        | _ => throw .typeError
      | .str "match" => return .bool (pyStartsWith strValue pat)
      | .str "search" => return .bool (pyContainsSub strValue pat)
      | _ => return default
  | _ => throw .typeError

/-- The condition loop of `transform_conditional`: first truthy `if`
wins; evaluation errors skip to the next condition. -/
def condLoop (env : Env) (value source_data : Value) (evalThen : Value) :
    List Value → Value → Except PyErr Value
  | [], elseValue => .ok elseValue
  | c :: rest, elseValue =>
    match c with
    | .obj kvs =>
      let ifExpr := (assocGet kvs "if").getD (.str "")
      let thenValue := (assocGet kvs "then").getD .null
      (match ifExpr with
       | .str ie =>
         match pyEval env (some value) false false source_data ie with
         | .ok r =>
           if r.truthy then
             (if evalThen.truthy then
               (match thenValue with
                | .str te =>
                  match pyEval env (some value) false false source_data te with
                  | .ok tv => .ok tv
                  | .error _ => condLoop env value source_data evalThen rest elseValue
                | tv => .ok tv)
              else .ok thenValue)
           else condLoop env value source_data evalThen rest elseValue
         | .error _ => condLoop env value source_data evalThen rest elseValue
       | _ => condLoop env value source_data evalThen rest elseValue)
    | _ => .error .attributeError

/-- `transform_conditional`: ordered `if`/`then` pairs over value and
scope; no match yields the configured `else` or the rule default. -/
def transform_conditional (env : Env) (value config default source_data : Value) :
    Except PyErr Value := do
  let conditions ← configGet config "conditions" (.arr [])
  let evalThen ← configGet config "eval_then" (.bool false)
  let elseValue ← configGet config "else" default
  let items ← pyIterate conditions
  condLoop env value source_data evalThen items elseValue

/-! ## Transformer registry and the field mapper -/

/-- Transformer signature `(value, config, default, source_data) -> value`
(the unused `mapping` argument of the Python contract is omitted; no
built-in reads it), over the ambient host environment. -/
abbrev Transformer := Env → Value → Value → Value → Value → Except PyErr Value

/-- The registry as populated by the module's `@register_transformer`
decorators at import time: exactly the nine built-ins. -/
def registryGet (name : String) : Option Transformer :=
  if name = "Direct" then some transform_direct
  else if name = "Lookup" then some transform_lookup
  else if name = "Formula" then some transform_formula
  else if name = "Cast" then some transform_cast
  else if name = "Default" then some transform_default
  else if name = "Concat" then some transform_concat
  else if name = "Split" then some transform_split
  else if name = "Map" then some transform_map
  else if name = "Regex" then some transform_regex
  else if name = "Conditional" then some transform_conditional
  else none

/-- `get_transformer`: unknown kinds raise via `frappe.throw`. -/
def get_transformer (name : String) : Except PyErr Transformer :=
  match registryGet name with
  | some t => .ok t
  | none => .error (.frappeThrow ("Unknown transformation type: " ++ name))

/-- One field-mapping rule, with the dictionary-access defaults the
engine applies (`mapping.get("source_field", "")`, etc.). -/
structure Mapping where
  source_field : String := ""
  target_field : String := ""
  transformation : String := "Direct"
  transform_config : Option String := none
  default_value : Value := .null
  is_child_mapping : Bool := false
  child_source_path : String := ""
  child_target_path : String := ""

/-- Source-value extraction, transformer resolution and invocation for
one rule (the body of `_apply_mapping` before the target write). -/
def applyTransform (env : Env) (source_data : Doc) (m : Mapping) :
    Except PyErr Value := do
  let sourceValue := getNestedV (.obj source_data) m.source_field
  let transformer ← get_transformer m.transformation
  transformer env sourceValue (parseConfig m.transform_config) m.default_value
    (.obj source_data)

/-- `_apply_mapping`: transform, then write to the target path. -/
def applyMapping (env : Env) (source_data : Doc) (result : Doc) (m : Mapping) :
    Except PyErr Doc := do
  let v ← applyTransform env source_data m
  setNested result m.target_field v

/-- The per-row loop of `_apply_child_mapping`: for each source element,
extract, transform, and write into the row at the same index (the row
list models the aliased target array being mutated in place). -/
def writeRows (env : Env) (m : Mapping) (t : Transformer) :
    List Value → Nat → List Value → Except PyErr (List Value)
  | [], _, rows => .ok rows
  | item :: rest, idx, rows => do
    let sourceValue := getNestedV item m.source_field
    let transformed ← t env sourceValue (parseConfig m.transform_config)
      m.default_value item
    match rows.get? idx with
    | none => .error .indexError
    | some row => do
      let row2 ← setNestedV row m.target_field transformed
      writeRows env m t rest (idx + 1) (rows.set idx row2)

/-- `_apply_child_mapping`.  A non-list source array skips the rule.
Otherwise the target array is fetched at the child target path (created
as a list of empty dicts and attached when the path held `None`), padded
with empty dicts to the source length, filled row by row, and the
document finally reflects the in-place mutations performed through the
alias `_get_nested_value` handed out. -/
def applyChildMapping (env : Env) (source_data : Doc) (result : Doc) (m : Mapping) :
    Except PyErr Doc := do
  let sourceArray := getNestedV (.obj source_data) m.child_source_path
  match sourceArray with
  | .arr src => do
    let t0 := getNestedV (.obj result) m.child_target_path
    let (result1, rows0) ←
      match t0 with
      | .null => do
        let rows : List Value := List.replicate src.length (Value.obj [])
        let r1 ← setNested result m.child_target_path (.arr rows)
        pure (r1, rows)
      | .arr xs => pure (result, xs)
      | _ => throw .typeError
    let rows1 := rows0 ++ List.replicate (src.length - rows0.length) (Value.obj [])
    let transformer ← get_transformer m.transformation
    let rows2 ← writeRows env m transformer src 0 rows1
    pure (modifyAtGetTop result1 m.child_target_path (.arr rows2))
  | _ => pure result

/-- Phase 1 of `transform`: the non-child rules in specification order.
The `Doc` component is the state of the in-progress target at the moment
the first error (if any) was raised. -/
def runRules (env : Env) (source_data : Doc) :
    List Mapping → Doc → Doc × Option PyErr
  | [], acc => (acc, none)
  | m :: rest, acc =>
    if m.is_child_mapping then runRules env source_data rest acc
    else
      match applyMapping env source_data acc m with
      | .ok acc2 => runRules env source_data rest acc2
      | .error e => (acc, some e)

/-- Phase 2 of `transform`: the child rules in specification order. -/
def runChildRules (env : Env) (source_data : Doc) :
    List Mapping → Doc → Doc × Option PyErr
  | [], acc => (acc, none)
  | m :: rest, acc =>
    if m.is_child_mapping then
      match applyChildMapping env source_data acc m with
      | .ok acc2 => runChildRules env source_data rest acc2
      | .error e => (acc, some e)
    else runChildRules env source_data rest acc

/-- A field mapper holding its mapping specification. -/
structure FieldMapper where
  mappings : List Mapping

/-- `FieldMapper.transform`, instrumented with the state of the target
document at the moment an exception escapes (`none` means the document
component is the returned target). -/
def transformTrace (env : Env) (fm : FieldMapper) (source_data : Doc) :
    Doc × Option PyErr :=
  if fm.mappings.isEmpty then
    ([], some (.frappeThrow "No field mappings configured"))
  else
    match runRules env source_data fm.mappings [] with
    | (d, some e) => (d, some e)
    | (d, none) => runChildRules env source_data fm.mappings d

/-- `FieldMapper.transform`. -/
def FieldMapper.transform (env : Env) (fm : FieldMapper) (source_data : Doc) :
    Except PyErr Doc :=
  match transformTrace env fm source_data with
  | (d, none) => .ok d
  | (_, some e) => .error e

/-- `FieldMapper.__init__` called with a direct mapping list
(`entity_name=None`): no validation is performed; an empty or absent
list leaves `self.mappings = []` (the `elif mappings:` guard is falsy
for an empty list), and construction never raises. -/
def mkFieldMapper (mappings : Option (List Mapping)) : Except PyErr FieldMapper :=
  .ok (match mappings with
       | some ms => if ms.isEmpty then ⟨[]⟩ else ⟨ms⟩
       | none => ⟨[]⟩)

/-! ## Concrete host environments and rule predicates -/

/-- A concrete host environment (used to instantiate theorems). -/
def env0 : Env :=
  { nowdate := .str "2026-10-12", now_datetime := .str "2026-10-12 10:00:00",
    frappeMod := fun _ => .null, getValue := fun _ _ _ => .null,
    createDoc := fun _ _ _ => .error () }

/-- A second host environment, observably different from `env0` in its
clock and database (a later run of the same transform). -/
def env1 : Env :=
  { nowdate := .str "2026-10-13", now_datetime := .str "2026-10-13 09:00:00",
    frappeMod := fun e => .str e, getValue := fun _ _ _ => .str "hit",
    createDoc := fun _ _ _ => .ok (.str "created") }

/-- A rule neither consults the Entity Resolver (Lookup) nor contains a
time-dependent or host-reaching expression anywhere in its parsed
config. -/
def mappingEnvFree (m : Mapping) : Bool :=
  (m.transformation != "Lookup") && valueStringsDet (parseConfig m.transform_config)

/-! ## Helper lemmas about the embedded operations -/

theorem assocGet_assocSet (kvs : List (String × Value)) (k : String) (v : Value) :
    assocGet (assocSet kvs k v) k = some v := by
  induction kvs with
  | nil => simp [assocSet, assocGet]
  | cons kv rest ih =>
    obtain ⟨k0, v0⟩ := kv
    by_cases h : k0 = k
    · simp [assocSet, assocGet, h]
    · simp [assocSet, assocGet, h, ih]

theorem assocSet_ne_nil (kvs : List (String × Value)) (k : String) (v : Value) :
    assocSet kvs k v ≠ [] := by
  cases kvs with
  | nil => simp [assocSet]
  | cons kv rest =>
    obtain ⟨k0, v0⟩ := kv
    by_cases h : k0 = k <;> simp [assocSet, h]

theorem splitDotAux_ne_nil (cs : List Char) (acc : List Char) :
    splitDotAux cs acc ≠ [] := by
  induction cs generalizing acc with
  | nil => simp [splitDotAux]
  | cons c rest ih =>
    by_cases h : c = '.' <;> simp [splitDotAux, h, ih]

theorem splitPath_ne_nil (p : String) : splitPath p ≠ [] :=
  splitDotAux_ne_nil p.data []

theorem getLoop_null (ks : List String) : getLoop .null ks = .null := by
  cases ks <;> simp [getLoop]

/-- An in-range `List.set` is observable at its index. -/
theorem get?_set_self {α : Type} (l : List α) (i : Nat) (v : α) (h : i < l.length) :
    (l.set i v).get? i = some v := by
  induction l generalizing i with
  | nil => simp at h
  | cons a rest ih =>
    cases i with
    | zero => simp [List.set]
    | succ j => simpa [List.set] using ih j (by simpa using h)

/-- `List.set` leaves other indices alone. -/
theorem get?_set_other {α : Type} (l : List α) (i j : Nat) (v : α) (h : i ≠ j) :
    (l.set i v).get? j = l.get? j := by
  induction l generalizing i j with
  | nil => simp
  | cons a rest ih =>
    cases i with
    | zero => cases j with
      | zero => exact absurd rfl h
      | succ j2 => simp [List.set]
    | succ i2 => cases j with
      | zero => simp [List.set]
      | succ j2 => simpa [List.set] using ih i2 j2 (by omega)

/-- A successfully written node is a dict or a list, never `None`. -/
theorem setLoop_ok_shape (ks : List String) (c v w : Value)
    (h : setLoop c ks v = .ok w) :
    (∃ kvs, w = .obj kvs ∧ kvs ≠ []) ∨ (∃ xs, w = .arr xs) := by
  cases ks with
  | nil => simp [setLoop] at h
  | cons k rest =>
    cases rest with
    | nil =>
      cases c with
      | obj kvs =>
        simp [setLoop] at h
        exact Or.inl ⟨assocSet kvs k v, h.symm, assocSet_ne_nil kvs k v⟩
      | arr xs =>
        by_cases hk : strIsNat k <;> simp [setLoop, hk] at h
        exact Or.inr ⟨_, h.symm⟩
      | null => simp [setLoop] at h
      | bool b => simp [setLoop] at h
      | int n => simp [setLoop] at h
      | str s => simp [setLoop] at h
    | cons k2 rest2 =>
      cases c with
      | obj kvs =>
        simp only [setLoop] at h
        cases hc : setLoop (match assocGet kvs k with
            | some v => v
            | none => if strIsNat k2 then Value.arr [] else Value.obj [])
            (k2 :: rest2) v with
        | ok c0 =>
          rw [hc] at h
          simp at h
          exact Or.inl ⟨assocSet kvs k c0, h.symm, assocSet_ne_nil kvs k c0⟩
        | error e => rw [hc] at h; simp at h
      | null => simp [setLoop] at h
      | bool b => simp [setLoop] at h
      | int n => simp [setLoop] at h
      | str s => simp [setLoop] at h
      | arr xs => simp [setLoop] at h

theorem setLoop_ok_ne_null (ks : List String) (c v w : Value)
    (h : setLoop c ks v = .ok w) : w ≠ .null := by
  rcases setLoop_ok_shape ks c v w h with ⟨kvs, rfl, _⟩ | ⟨xs, rfl⟩ <;> simp

/-- The grown list of the final-segment list write is long enough. -/
theorem grown_length_lt (xs : List Value) (idx : Nat) :
    idx < (xs ++ List.replicate (idx + 1 - xs.length) (Value.obj [])).length := by
  simp [List.length_append, List.length_replicate]
  omega

/-- Writing at a path and reading it back yields the written value. -/
theorem getLoop_setLoop : ∀ (ks : List String) (c v w : Value),
    setLoop c ks v = .ok w → getLoop w ks = v := by
  intro ks
  induction ks with
  | nil => intro c v w h; simp [setLoop] at h
  | cons k rest ih =>
    intro c v w h
    cases rest with
    | nil =>
      cases c with
      | obj kvs =>
        simp [setLoop] at h
        subst h
        simp only [getLoop, assocGet_assocSet, Option.getD_some]
        cases v <;> simp [getLoop]
      | arr xs =>
        by_cases hk : strIsNat k <;> simp [setLoop, hk] at h
        subst h
        simp only [getLoop, hk, if_true,
          get?_set_self _ _ _ (grown_length_lt xs (strToNat k)), Option.getD_some]
        cases v <;> simp [getLoop]
      | null => simp [setLoop] at h
      | bool b => simp [setLoop] at h
      | int n => simp [setLoop] at h
      | str s => simp [setLoop] at h
    | cons k2 rest2 =>
      cases c with
      | obj kvs =>
        simp only [setLoop] at h
        cases hc : setLoop (match assocGet kvs k with
            | some v => v
            | none => if strIsNat k2 then Value.arr [] else Value.obj [])
            (k2 :: rest2) v with
        | ok c0 =>
          rw [hc] at h
          simp at h
          subst h
          have hrec := ih _ v c0 hc
          have hne := setLoop_ok_ne_null _ _ v c0 hc
          simp only [getLoop, assocGet_assocSet, Option.getD_some]
          cases c0 with
          | null => exact absurd rfl hne
          | bool b => simpa [getLoop] using hrec
          | int n => simpa [getLoop] using hrec
          | str s => simpa [getLoop] using hrec
          | arr xs => simpa [getLoop] using hrec
          | obj kvs2 => simpa [getLoop] using hrec
        | error e => rw [hc] at h; simp at h
      | null => simp [setLoop] at h
      | bool b => simp [setLoop] at h
      | int n => simp [setLoop] at h
      | str s => simp [setLoop] at h
      | arr xs => simp [setLoop] at h

/-- Document-level roundtrip: a successful `_set_nested_value` is
observable through `_get_nested_value` at the same path. -/
theorem getNested_setNested (d d' : Doc) (p : String) (v : Value)
    (hp : p.isEmpty = false) (h : setNested d p v = .ok d') :
    getNestedV (.obj d') p = v := by
  simp only [setNested, setNestedV, hp, Bool.false_eq_true, if_false] at h
  cases hs : setLoop (.obj d) (splitPath p) v with
  | ok w =>
    rw [hs] at h
    rcases setLoop_ok_shape _ _ _ _ hs with ⟨kvs, rfl, hne⟩ | ⟨xs, rfl⟩
    · simp at h
      subst h
      have := getLoop_setLoop (splitPath p) _ v _ hs
      simpa [getNestedV, hp, Value.truthy, hne] using this
    · simp at h
  | error e => rw [hs] at h; simp at h

/-- Replaying a successful read as an in-place mutation succeeds and is
observable at the same path. -/
theorem modifyAtGet_spec : ∀ (ks : List String) (c w0 w : Value),
    getLoop c ks = w0 → w0 ≠ .null → w ≠ .null →
    ∃ c', modifyAtGet c ks w = some c' ∧ getLoop c' ks = w := by
  intro ks
  induction ks with
  | nil =>
    intro c w0 w hg h0 hw
    exact ⟨w, rfl, rfl⟩
  | cons k rest ih =>
    intro c w0 w hg h0 hw
    cases c with
    | obj kvs =>
      simp only [getLoop] at hg
      cases hgk : assocGet kvs k with
      | none => rw [hgk] at hg; simp at hg; exact absurd hg.symm h0
      | some v =>
        rw [hgk] at hg
        simp only [Option.getD_some] at hg
        cases v with
        | null => simp at hg; exact absurd hg.symm h0
        | bool b =>
          obtain ⟨v', hm, hl⟩ := ih _ w0 w hg h0 hw
          refine ⟨.obj (assocSet kvs k v'), ?_, ?_⟩
          · simp [modifyAtGet, hgk, hm]
          · have hv' : v' ≠ .null := by
              intro hn; rw [hn, getLoop_null] at hl; exact hw hl.symm
            simp only [getLoop, assocGet_assocSet, Option.getD_some]
            cases v' <;> simp_all [getLoop]
        | int n =>
          obtain ⟨v', hm, hl⟩ := ih _ w0 w hg h0 hw
          refine ⟨.obj (assocSet kvs k v'), ?_, ?_⟩
          · simp [modifyAtGet, hgk, hm]
          · have hv' : v' ≠ .null := by
              intro hn; rw [hn, getLoop_null] at hl; exact hw hl.symm
            simp only [getLoop, assocGet_assocSet, Option.getD_some]
            cases v' <;> simp_all [getLoop]
        | str s =>
          obtain ⟨v', hm, hl⟩ := ih _ w0 w hg h0 hw
          refine ⟨.obj (assocSet kvs k v'), ?_, ?_⟩
          · simp [modifyAtGet, hgk, hm]
          · have hv' : v' ≠ .null := by
              intro hn; rw [hn, getLoop_null] at hl; exact hw hl.symm
            simp only [getLoop, assocGet_assocSet, Option.getD_some]
            cases v' <;> simp_all [getLoop]
        | arr ys =>
          obtain ⟨v', hm, hl⟩ := ih _ w0 w hg h0 hw
          refine ⟨.obj (assocSet kvs k v'), ?_, ?_⟩
          · simp [modifyAtGet, hgk, hm]
          · have hv' : v' ≠ .null := by
              intro hn; rw [hn, getLoop_null] at hl; exact hw hl.symm
            simp only [getLoop, assocGet_assocSet, Option.getD_some]
            cases v' <;> simp_all [getLoop]
        | obj kvs2 =>
          obtain ⟨v', hm, hl⟩ := ih _ w0 w hg h0 hw
          refine ⟨.obj (assocSet kvs k v'), ?_, ?_⟩
          · simp [modifyAtGet, hgk, hm]
          · have hv' : v' ≠ .null := by
              intro hn; rw [hn, getLoop_null] at hl; exact hw hl.symm
            simp only [getLoop, assocGet_assocSet, Option.getD_some]
            cases v' <;> simp_all [getLoop]
    | arr xs =>
      simp only [getLoop] at hg
      by_cases hk : strIsNat k
      · rw [if_pos hk] at hg
        cases hgk : xs.get? (strToNat k) with
        | none => rw [hgk] at hg; simp at hg; exact absurd hg.symm h0
        | some v =>
          rw [hgk] at hg
          simp only [Option.getD_some] at hg
          have hlt : strToNat k < xs.length := by
            have := List.get?_eq_some.mp hgk
            exact this.1
          cases v with
          | null => simp at hg; exact absurd hg.symm h0
          | bool b =>
            obtain ⟨v', hm, hl⟩ := ih _ w0 w hg h0 hw
            refine ⟨.arr (xs.set (strToNat k) v'), ?_, ?_⟩
            · simp only [modifyAtGet, hk, if_true]
              rw [hgk]
              simp [hm]
            · have hv' : v' ≠ .null := by
                intro hn; rw [hn, getLoop_null] at hl; exact hw hl.symm
              simp only [getLoop, hk, if_true, get?_set_self _ _ _ hlt, Option.getD_some]
              cases v' <;> simp_all [getLoop]
          | int n =>
            obtain ⟨v', hm, hl⟩ := ih _ w0 w hg h0 hw
            refine ⟨.arr (xs.set (strToNat k) v'), ?_, ?_⟩
            · simp only [modifyAtGet, hk, if_true]
              rw [hgk]
              simp [hm]
            · have hv' : v' ≠ .null := by
                intro hn; rw [hn, getLoop_null] at hl; exact hw hl.symm
              simp only [getLoop, hk, if_true, get?_set_self _ _ _ hlt, Option.getD_some]
              cases v' <;> simp_all [getLoop]
          | str s =>
            obtain ⟨v', hm, hl⟩ := ih _ w0 w hg h0 hw
            refine ⟨.arr (xs.set (strToNat k) v'), ?_, ?_⟩
            · simp only [modifyAtGet, hk, if_true]
              rw [hgk]
              simp [hm]
            · have hv' : v' ≠ .null := by
                intro hn; rw [hn, getLoop_null] at hl; exact hw hl.symm
              simp only [getLoop, hk, if_true, get?_set_self _ _ _ hlt, Option.getD_some]
              cases v' <;> simp_all [getLoop]
          | arr ys =>
            obtain ⟨v', hm, hl⟩ := ih _ w0 w hg h0 hw
            refine ⟨.arr (xs.set (strToNat k) v'), ?_, ?_⟩
            · simp only [modifyAtGet, hk, if_true]
              rw [hgk]
              simp [hm]
            · have hv' : v' ≠ .null := by
                intro hn; rw [hn, getLoop_null] at hl; exact hw hl.symm
              simp only [getLoop, hk, if_true, get?_set_self _ _ _ hlt, Option.getD_some]
              cases v' <;> simp_all [getLoop]
          | obj kvs2 =>
            obtain ⟨v', hm, hl⟩ := ih _ w0 w hg h0 hw
            refine ⟨.arr (xs.set (strToNat k) v'), ?_, ?_⟩
            · simp only [modifyAtGet, hk, if_true]
              rw [hgk]
              simp [hm]
            · have hv' : v' ≠ .null := by
                intro hn; rw [hn, getLoop_null] at hl; exact hw hl.symm
              simp only [getLoop, hk, if_true, get?_set_self _ _ _ hlt, Option.getD_some]
              cases v' <;> simp_all [getLoop]
      · rw [if_neg hk] at hg
        simp at hg
        exact absurd hg.symm h0
    | null => simp [getLoop] at hg; exact absurd hg.symm h0
    | bool b => simp [getLoop] at hg; exact absurd hg.symm h0
    | int n => simp [getLoop] at hg; exact absurd hg.symm h0
    | str s => simp [getLoop] at hg; exact absurd hg.symm h0

/-- A replayed mutation from a dict root rebuilds a dict root. -/
theorem modifyAtGet_obj_shape (kvs : List (String × Value)) (k : String)
    (ks : List String) (w c' : Value)
    (h : modifyAtGet (.obj kvs) (k :: ks) w = some c') :
    ∃ v', c' = .obj (assocSet kvs k v') := by
  simp only [modifyAtGet] at h
  cases hg : assocGet kvs k with
  | none => rw [hg] at h; simp at h
  | some v =>
    rw [hg] at h
    cases v with
    | null => simp at h
    | bool b =>
      rcases Option.map_eq_some'.mp h with ⟨v', _, hv⟩
      exact ⟨v', hv.symm⟩
    | int n =>
      rcases Option.map_eq_some'.mp h with ⟨v', _, hv⟩
      exact ⟨v', hv.symm⟩
    | str s =>
      rcases Option.map_eq_some'.mp h with ⟨v', _, hv⟩
      exact ⟨v', hv.symm⟩
    | arr ys =>
      rcases Option.map_eq_some'.mp h with ⟨v', _, hv⟩
      exact ⟨v', hv.symm⟩
    | obj kvs2 =>
      rcases Option.map_eq_some'.mp h with ⟨v', _, hv⟩
      exact ⟨v', hv.symm⟩

/-- Document-level: replaying a successful non-`None` read as a
mutation is observable at the same path. -/
theorem modifyAtGetTop_get (d : Doc) (p : String) (w0 w : Value)
    (hg : getNestedV (.obj d) p = w0) (h0 : w0 ≠ .null) (hw : w ≠ .null) :
    getNestedV (.obj (modifyAtGetTop d p w)) p = w := by
  by_cases hp : p.isEmpty
  · rw [getNestedV, if_pos (by simp [hp])] at hg
    exact absurd hg.symm h0
  by_cases hd : d.isEmpty
  · rw [getNestedV, if_pos (by simp [Value.truthy, hd])] at hg
    exact absurd hg.symm h0
  rw [getNestedV, if_neg (by simp [hp, Value.truthy, hd])] at hg
  obtain ⟨c', hm, hl⟩ := modifyAtGet_spec (splitPath p) (.obj d) w0 w hg h0 hw
  cases hks : splitPath p with
  | nil => exact absurd hks (splitPath_ne_nil p)
  | cons k ks =>
    rw [hks] at hm hl
    obtain ⟨v', hv'⟩ := modifyAtGet_obj_shape d k ks w c' hm
    rw [modifyAtGetTop, if_neg (by simp [hp, hd]), hks, hm, hv']
    rw [getNestedV,
      if_neg (by simp [hp, Value.truthy, assocSet_ne_nil d k v']), hks]
    rw [hv'] at hl
    exact hl

/-- The row-writing loop preserves the target array's length. -/
theorem writeRows_length (env : Env) (m : Mapping) (t : Transformer) :
    ∀ (items : List Value) (idx : Nat) (rows rows' : List Value),
    writeRows env m t items idx rows = .ok rows' → rows'.length = rows.length := by
  intro items
  induction items with
  | nil => intro idx rows rows' h; simp [writeRows] at h; simp [h]
  | cons item rest ih =>
    intro idx rows rows' h
    simp only [writeRows, bind, Except.bind] at h
    cases ht : t env (getNestedV item m.source_field) (parseConfig m.transform_config)
        m.default_value item with
    | error e => rw [ht] at h; simp at h
    | ok tv =>
      rw [ht] at h
      simp only at h
      cases hr : rows.get? idx with
      | none => rw [hr] at h; simp at h
      | some row =>
        rw [hr] at h
        simp only at h
        cases hs : setNestedV row m.target_field tv with
        | error e => rw [hs] at h; simp at h
        | ok row2 =>
          rw [hs] at h
          simp only at h
          have := ih (idx + 1) (rows.set idx row2) rows' h
          simpa [List.length_set] using this

/-- The row-writing loop does not touch rows at or beyond the written
range. -/
theorem writeRows_get_ge (env : Env) (m : Mapping) (t : Transformer) :
    ∀ (items : List Value) (idx : Nat) (rows rows' : List Value) (j : Nat),
    writeRows env m t items idx rows = .ok rows' → idx + items.length ≤ j →
    rows'.get? j = rows.get? j := by
  intro items
  induction items with
  | nil => intro idx rows rows' j h hj; simp [writeRows] at h; simp [h]
  | cons item rest ih =>
    intro idx rows rows' j h hj
    simp only [writeRows, bind, Except.bind] at h
    cases ht : t env (getNestedV item m.source_field) (parseConfig m.transform_config)
        m.default_value item with
    | error e => rw [ht] at h; simp at h
    | ok tv =>
      rw [ht] at h
      simp only at h
      cases hr : rows.get? idx with
      | none => rw [hr] at h; simp at h
      | some row =>
        rw [hr] at h
        simp only at h
        cases hs : setNestedV row m.target_field tv with
        | error e => rw [hs] at h; simp at h
        | ok row2 =>
          rw [hs] at h
          simp only at h
          have h1 := ih (idx + 1) (rows.set idx row2) rows' j h (by simp at hj; omega)
          rw [h1, get?_set_other _ _ _ _ (by simp at hj; omega)]

/-- Phase 1 distributes over list append. -/
theorem runRules_append (env : Env) (src : Doc) :
    ∀ (pre rest : List Mapping) (acc : Doc),
    runRules env src (pre ++ rest) acc =
      match runRules env src pre acc with
      | (d, none) => runRules env src rest d
      | (d, some e) => (d, some e) := by
  intro pre
  induction pre with
  | nil => intro rest acc; simp [runRules]
  | cons m pre2 ih =>
    intro rest acc
    by_cases hm : m.is_child_mapping
    · simp only [List.cons_append, runRules, hm, if_true]
      exact ih rest acc
    · simp only [List.cons_append, runRules, hm, Bool.false_eq_true, if_false]
      cases h : applyMapping env src acc m with
      | ok acc2 => exact ih rest acc2
      | error e => rfl

/-! ## Claim theorems -/

/-- C2 (code evaluation at the failing input): setting value `1` at the
well-formed, negative-index-free, non-shrinking path `"a.0.b"` in an
empty mutable document raises `TypeError` instead of lazily creating the
intermediate sequence and map, so `set` does fail on such a path and the
`get(set(doc, p, v), p) == v` roundtrip cannot be stated there.  (The
code creates `current["a"] = []` because the next segment is numeric,
then immediately executes `current["0"] = {}` on that list.) -/
theorem C2_code_evaluation :
    setNested [] "a.0.b" (Value.int 1) = .error PyErr.typeError := rfl

/-- C4 (code evaluation at the failing input): the configuration string
`"5"` is valid JSON, so `_parse_config` returns the integer `5` instead
of an empty config object (contradicting its `-> dict` annotation), and
the Direct transformer's `config.get("strip", False)` then raises
`AttributeError`, aborting the whole `transform()` call instead of
degrading that one rule. -/
theorem C4_code_evaluation :
    parseConfig (some "5") = Value.int 5 ∧
    FieldMapper.transform env0
      ⟨[{ source_field := "x", target_field := "a", transform_config := some "5" }]⟩
      [("x", Value.str "abc")] = .error PyErr.attributeError :=
  ⟨rfl, rfl⟩

/-- C7 (counterexample): constructing a `FieldMapper` from an empty
(zero-rule) mapping specification succeeds — `__init__` performs no
validation, so no error is raised at construction time. -/
theorem C7_counterexample :
    mkFieldMapper (some []) = .ok ⟨[]⟩ := rfl

/-- C7 (amended): construction from a mapping list never raises, for an
empty list as for any other; the empty-specification error
(`"No field mappings configured"`) is raised only when `transform()` is
called on the mapper with no rules. -/
theorem C7_empty_spec_error_at_transform_time (env : Env) (src : Doc)
    (ms : List Mapping) :
    (∃ fm, mkFieldMapper (some ms) = .ok fm) ∧
    FieldMapper.transform env ⟨[]⟩ src =
      .error (.frappeThrow "No field mappings configured") :=
  ⟨⟨_, rfl⟩, rfl⟩

/-- C6: a child rule whose child source path does not resolve to a
sequence is skipped entirely: the target document is returned unchanged,
no error is raised, and the remaining rules are processed as if the rule
were absent. -/
theorem C6_child_rule_skipped (env : Env) (src acc : Doc) (m : Mapping)
    (rest : List Mapping)
    (hm : m.is_child_mapping = true)
    (h : ∀ xs, getNestedV (.obj src) m.child_source_path ≠ .arr xs) :
    applyChildMapping env src acc m = .ok acc ∧
    runChildRules env src (m :: rest) acc = runChildRules env src rest acc := by
  have h1 : applyChildMapping env src acc m = .ok acc := by
    cases hv : getNestedV (.obj src) m.child_source_path with
    | arr xs => exact absurd hv (h xs)
    | null => simp [applyChildMapping, hv]; rfl
    | bool b => simp [applyChildMapping, hv]; rfl
    | int n => simp [applyChildMapping, hv]; rfl
    | str s => simp [applyChildMapping, hv]; rfl
    | obj kvs => simp [applyChildMapping, hv]; rfl
  refine ⟨h1, ?_⟩
  simp [runChildRules, hm, h1]

/-- C6 witness. -/
theorem C6_witness :
    applyChildMapping env0 [("items", Value.int 5)] [("keep", Value.int 1)]
      { source_field := "q", target_field := "qty", is_child_mapping := true,
        child_source_path := "items", child_target_path := "rows" }
      = .ok [("keep", Value.int 1)] ∧
    runChildRules env0 [("items", Value.int 5)]
      ({ source_field := "q", target_field := "qty", is_child_mapping := true,
         child_source_path := "items", child_target_path := "rows" } :: [])
      [("keep", Value.int 1)] =
    runChildRules env0 [("items", Value.int 5)] [] [("keep", Value.int 1)] :=
  C6_child_rule_skipped env0 [("items", Value.int 5)] [("keep", Value.int 1)]
    { source_field := "q", target_field := "qty", is_child_mapping := true,
      child_source_path := "items", child_target_path := "rows" } []
    rfl (fun _ h => Value.noConfusion h)

/-- C1 (counterexample): a specification whose second rule names the
unregistered kind `"Bogus"` does make `transform()` raise the
unknown-transformation error, but only after the first rule has already
written into the in-progress target document — the target state at the
moment of the raise is not empty, refuting all-or-nothing validation. -/
theorem C1_counterexample :
    (transformTrace env0
      ⟨[{ source_field := "x", target_field := "a" },
        { source_field := "x", target_field := "b", transformation := "Bogus" }]⟩
      [("x", Value.str "v")]).2
      = some (.frappeThrow "Unknown transformation type: Bogus") ∧
    (transformTrace env0
      ⟨[{ source_field := "x", target_field := "a" },
        { source_field := "x", target_field := "b", transformation := "Bogus" }]⟩
      [("x", Value.str "v")]).1 ≠ [] :=
  ⟨rfl, fun h => List.noConfusion h⟩

/-- C1 (amended): validation is lazy, not all-or-nothing.  When the
engine reaches the first non-child rule naming an unregistered kind —
the earlier non-child rules having applied cleanly and produced the
in-progress target `d` — `transform()` raises the ConfigurationError
`"Unknown transformation type: …"` at that point, with `d`'s mutations
already performed (though no target document is returned to the
caller). -/
theorem C1_lazy_unknown_kind (env : Env) (src : Doc) (pre post : List Mapping)
    (m : Mapping) (d : Doc)
    (hm : m.is_child_mapping = false)
    (hunreg : registryGet m.transformation = none)
    (hpre : runRules env src pre [] = (d, none)) :
    transformTrace env ⟨pre ++ m :: post⟩ src =
      (d, some (.frappeThrow ("Unknown transformation type: " ++ m.transformation))) := by
  rw [transformTrace]
  rw [if_neg (by simp)]
  rw [runRules_append, hpre]
  simp only [runRules, hm, Bool.false_eq_true, if_false]
  have happ : applyMapping env src d m =
      .error (.frappeThrow ("Unknown transformation type: " ++ m.transformation)) := by
    simp [applyMapping, applyTransform, get_transformer, hunreg, bind, Except.bind]
  rw [happ]

/-- C1 witness. -/
theorem C1_witness :
    transformTrace env0
      ⟨[{ source_field := "x", target_field := "a" }] ++
        { source_field := "x", target_field := "b", transformation := "Bogus" } :: []⟩
      [("x", Value.str "v")]
      = ([("a", Value.str "v")],
         some (.frappeThrow "Unknown transformation type: Bogus")) :=
  C1_lazy_unknown_kind env0 [("x", Value.str "v")]
    [{ source_field := "x", target_field := "a" }] []
    { source_field := "x", target_field := "b", transformation := "Bogus" }
    [("a", Value.str "v")] rfl rfl rfl

/-- C10: for a non-empty source value, a configured integer index that
is negative makes the Split transformer return the rule default — the
`0 <= index < len(parts)` guard rejects every negative index, so no
element is ever selected from the end of the parts list. -/
theorem C10_split_negative_index (env : Env) (value default source_data : Value)
    (kvs : List (String × Value)) (i : Int) (sep : String)
    (hv : isEmptyVal value = false)
    (hsep : (assocGet kvs "separator").getD (.str " ") = .str sep)
    (hsepne : sep.isEmpty = false)
    (hidx : assocGet kvs "index" = some (.int i))
    (hjoin : ((assocGet kvs "join").getD .null).truthy = false)
    (hneg : i < 0) :
    transform_split env value (.obj kvs) default source_data = .ok default := by
  simp only [transform_split, hv, Bool.false_eq_true, if_false, configGet,
    hsep, hidx, bind, Except.bind, pure, Except.pure]
  simp only [hsepne, Bool.false_eq_true, if_false, hjoin, Option.getD_some]
  rw [if_neg (by omega)]

/-- C10 witness. -/
theorem C10_witness :
    transform_split env0 (Value.str "a b c") (.obj [("index", Value.int (-1))])
      (Value.str "dflt") (.obj []) = .ok (Value.str "dflt") :=
  C10_split_negative_index env0 (Value.str "a b c") (Value.str "dflt") (.obj [])
    [("index", Value.int (-1))] (-1) " " rfl rfl rfl rfl rfl (by decide)

/-- C8: with two non-child rules writing the same (non-empty) target
field path, the value at that path in the returned target document is
the later rule's transformer output — the later write wins. -/
theorem C8_later_rule_wins (env : Env) (src : Doc) (r1 r2 : Mapping)
    (out : Doc) (v2 : Value)
    (h1 : r1.is_child_mapping = false)
    (h2 : r2.is_child_mapping = false)
    (_hp : r1.target_field = r2.target_field)
    (hpne : r2.target_field.isEmpty = false)
    (htr : FieldMapper.transform env ⟨[r1, r2]⟩ src = .ok out)
    (hv2 : applyTransform env src r2 = .ok v2) :
    getNestedV (.obj out) r2.target_field = v2 := by
  rw [FieldMapper.transform, transformTrace, if_neg (by simp)] at htr
  simp only [runRules, h1, h2, Bool.false_eq_true, if_false] at htr
  cases ha1 : applyMapping env src [] r1 with
  | error e => rw [ha1] at htr; simp at htr
  | ok d1 =>
    rw [ha1] at htr
    dsimp only at htr
    cases ha2 : applyMapping env src d1 r2 with
    | error e => rw [ha2] at htr; simp at htr
    | ok d2 =>
      rw [ha2] at htr
      simp only [runChildRules, h1, h2, Bool.false_eq_true, if_false] at htr
      have hout : d2 = out := by
        simpa using htr
      rw [applyMapping, hv2] at ha2
      simp only [bind, Except.bind] at ha2
      subst hout
      exact getNested_setNested d1 d2 r2.target_field v2 hpne ha2

/-- C8 witness. -/
theorem C8_witness :
    getNestedV (.obj [("t", Value.str "2")]) "t" = Value.str "2" :=
  C8_later_rule_wins env0 [("x", Value.str "1"), ("y", Value.str "2")]
    { source_field := "x", target_field := "t" }
    { source_field := "y", target_field := "t" }
    [("t", Value.str "2")] (Value.str "2") rfl rfl rfl rfl rfl rfl

/-- C3 (counterexample): with a present, non-empty source value `"x"`
and a config whose `condition` evaluates false, the Default transformer
returns the original value `"x"` — it does **not** fall through to the
default-resolution chain (which would have produced the literal config
value `"d"`), refuting the claimed polarity of the condition. -/
theorem C3_counterexample :
    transform_default env0 (Value.str "x")
      (.obj [("condition", Value.str "False"), ("value", Value.str "d")])
      .null (.obj [])
      = .ok (Value.str "x") ∧
    Value.str "x" ≠ Value.str "d" :=
  ⟨rfl, fun h => by simp at h⟩

/-- C3 (amended): for a present, non-empty source value the Default
transformer returns it unchanged when no truthy `condition` is
configured, when the condition evaluates *false*, and when evaluating
the condition raises; it falls through to the default-resolution chain
(literal config value, then same-document field reference, then
expression, else the rule default — `defaultResolve`) exactly when the
condition evaluates *true*. -/
theorem C3_default_condition_semantics (env : Env)
    (value default source_data : Value) (kvs : List (String × Value))
    (hv : isEmptyVal value = false) :
    (((assocGet kvs "condition").getD .null).truthy = false →
      transform_default env value (.obj kvs) default source_data = .ok value) ∧
    (∀ c, assocGet kvs "condition" = some (.str c) → c.isEmpty = false →
      (pyEval env (some value) false false source_data c = .error () →
        transform_default env value (.obj kvs) default source_data = .ok value) ∧
      (∀ r, pyEval env (some value) false false source_data c = .ok r →
        r.truthy = false →
        transform_default env value (.obj kvs) default source_data = .ok value) ∧
      (∀ r, pyEval env (some value) false false source_data c = .ok r →
        r.truthy = true →
        transform_default env value (.obj kvs) default source_data =
          defaultResolve env (.obj kvs) default source_data)) := by
  constructor
  · intro hfalsy
    simp [transform_default, hv, configGet, bind, Except.bind, pure, Except.pure,
      hfalsy]
  · intro c hc hcne
    have hct : (Value.str c).truthy = true := by simp [Value.truthy, hcne]
    refine ⟨?_, ?_, ?_⟩
    · intro herr
      simp [transform_default, hv, configGet, bind, Except.bind, pure, Except.pure,
        hc, hct, herr]
    · intro r hok hrf
      simp [transform_default, hv, configGet, bind, Except.bind, pure, Except.pure,
        hc, hct, hok, hrf]
    · intro r hok hrt
      simp [transform_default, hv, configGet, bind, Except.bind, pure, Except.pure,
        hc, hct, hok, hrt]

/-- C3 witness. -/
theorem C3_witness :
    transform_default env0 (Value.str "x")
      (.obj [("condition", Value.str "True"), ("value", Value.str "d")])
      (Value.str "z") (.obj [])
      = defaultResolve env0
          (.obj [("condition", Value.str "True"), ("value", Value.str "d")])
          (Value.str "z") (.obj []) :=
  ((C3_default_condition_semantics env0 (Value.str "x") (Value.str "z") (.obj [])
      [("condition", Value.str "True"), ("value", Value.str "d")] rfl).2
    "True" rfl rfl).2.2 (Value.bool true) rfl rfl

/-- C5: for a child rule whose child source path resolves to a sequence
— and whose child target path currently holds a sequence or nothing —
the target array after the rule has length exactly
`max (previous length) (source length)`: created as empty dicts at the
source length when absent, grown with empty dicts when shorter, and
never shrunk; rows at indices the source does not reach are left exactly
as they were (no reordering or dropping of existing rows). -/
theorem C5_child_array_growth (env : Env) (src acc out : Doc) (m : Mapping)
    (srcArr prev : List Value)
    (hpath : m.child_target_path.isEmpty = false)
    (hs : getNestedV (.obj src) m.child_source_path = .arr srcArr)
    (hprev : getNestedV (.obj acc) m.child_target_path = .arr prev ∨
             (getNestedV (.obj acc) m.child_target_path = .null ∧ prev = []))
    (hok : applyChildMapping env src acc m = .ok out) :
    ∃ rows, getNestedV (.obj out) m.child_target_path = .arr rows ∧
      rows.length = max prev.length srcArr.length ∧
      ∀ j, srcArr.length ≤ j → rows.get? j = prev.get? j := by
  simp only [applyChildMapping, hs] at hok
  rcases hprev with hprev | ⟨hprev, hpnil⟩
  · rw [hprev] at hok
    simp only [bind, Except.bind, pure, Except.pure] at hok
    cases hgt : get_transformer m.transformation with
    | error e => rw [hgt] at hok; simp at hok
    | ok t =>
      rw [hgt] at hok
      dsimp only at hok
      cases hwr : writeRows env m t srcArr 0
          (prev ++ List.replicate (srcArr.length - prev.length) (Value.obj [])) with
      | error e => rw [hwr] at hok; simp at hok
      | ok rows2 =>
        rw [hwr] at hok
        dsimp only at hok
        have hout : modifyAtGetTop acc m.child_target_path (.arr rows2) = out := by
          simpa using hok
        subst hout
        refine ⟨rows2, ?_, ?_, ?_⟩
        · exact modifyAtGetTop_get acc _ (.arr prev) (.arr rows2) hprev
            (by simp) (by simp)
        · have h1 := writeRows_length env m t srcArr 0 _ rows2 hwr
          simp only [List.length_append, List.length_replicate] at h1
          omega
        · intro j hj
          have h2 := writeRows_get_ge env m t srcArr 0 _ rows2 j hwr (by omega)
          rw [h2]
          by_cases hjp : j < prev.length
          · rw [List.get?_append hjp]
          · have hle : prev.length ≤ j := by omega
            rw [List.get?_eq_none.mpr hle]
            apply List.get?_eq_none.mpr
            simp only [List.length_append, List.length_replicate]
            omega
  · subst hpnil
    rw [hprev] at hok
    simp only [bind, Except.bind, pure, Except.pure] at hok
    cases hset : setNested acc m.child_target_path
        (.arr (List.replicate srcArr.length (Value.obj []))) with
    | error e => rw [hset] at hok; simp at hok
    | ok r1 =>
      rw [hset] at hok
      dsimp only at hok
      cases hgt : get_transformer m.transformation with
      | error e => rw [hgt] at hok; simp at hok
      | ok t =>
        rw [hgt] at hok
        dsimp only at hok
        cases hwr : writeRows env m t srcArr 0
            (List.replicate srcArr.length (Value.obj []) ++
              List.replicate
                (srcArr.length - (List.replicate srcArr.length (Value.obj [])).length)
                (Value.obj [])) with
        | error e => rw [hwr] at hok; simp at hok
        | ok rows2 =>
          rw [hwr] at hok
          dsimp only at hok
          have hout : modifyAtGetTop r1 m.child_target_path (.arr rows2) = out := by
            simpa using hok
          subst hout
          have hr1get : getNestedV (.obj r1) m.child_target_path =
              .arr (List.replicate srcArr.length (Value.obj [])) :=
            getNested_setNested acc r1 _ _ hpath hset
          refine ⟨rows2, ?_, ?_, ?_⟩
          · exact modifyAtGetTop_get r1 _ _ (.arr rows2) hr1get (by simp) (by simp)
          · have h1 := writeRows_length env m t srcArr 0 _ rows2 hwr
            simp only [List.length_append, List.length_replicate] at h1
            simp only [List.length_nil]
            omega
          · intro j hj
            have h2 := writeRows_get_ge env m t srcArr 0 _ rows2 j hwr (by omega)
            rw [h2]
            rw [show ([] : List Value).get? j = none from rfl]
            apply List.get?_eq_none.mpr
            simp only [List.length_append, List.length_replicate]
            omega

/-- C5 witness (existing target array of length 2, source array of
length 1: the array keeps length `max 2 1 = 2` and row 1 is
untouched). -/
theorem C5_witness :
    ∃ rows,
      getNestedV
        (.obj [("rows", Value.arr
          [.obj [("old", Value.int 9), ("qty", Value.int 1)],
           .obj [("old", Value.int 8)]])]) "rows" = .arr rows ∧
      rows.length =
        max [Value.obj [("old", Value.int 9)], Value.obj [("old", Value.int 8)]].length
          [Value.obj [("q", Value.int 1)]].length ∧
      ∀ j, [Value.obj [("q", Value.int 1)]].length ≤ j →
        rows.get? j =
          [Value.obj [("old", Value.int 9)], Value.obj [("old", Value.int 8)]].get? j :=
  C5_child_array_growth env0
    [("items", Value.arr [.obj [("q", Value.int 1)]])]
    [("rows", Value.arr [.obj [("old", Value.int 9)], .obj [("old", Value.int 8)]])]
    [("rows", Value.arr
      [.obj [("old", Value.int 9), ("qty", Value.int 1)],
       .obj [("old", Value.int 8)]])]
    { source_field := "q", target_field := "qty", is_child_mapping := true,
      child_source_path := "items", child_target_path := "rows" }
    [Value.obj [("q", Value.int 1)]]
    [Value.obj [("old", Value.int 9)], Value.obj [("old", Value.int 8)]]
    rfl rfl (Or.inl rfl) rfl

/-- A deterministic expression evaluates identically under any two host
environments. -/
theorem pyEval_det (env2 env3 : Env) (valB : Option Value) (nowB frappeB : Bool)
    (source : Value) (e : String) (h : exprDet e = true) :
    pyEval env2 valB nowB frappeB source e = pyEval env3 valB nowB frappeB source e := by
  simp only [exprDet, Bool.and_eq_true, bne_iff_ne, ne_eq, Bool.not_eq_true] at h
  obtain ⟨⟨h1, h2⟩, h3⟩ := h
  simp only [pyEval]
  split_ifs <;> simp_all

/-- Lookup in a det-config dict yields a det value. -/
theorem objStringsDet_get (kvs : List (String × Value)) (k : String) (v : Value)
    (hd : objStringsDet kvs = true) (hg : assocGet kvs k = some v) :
    valueStringsDet v = true := by
  induction kvs with
  | nil => simp [assocGet] at hg
  | cons kv rest ih =>
    obtain ⟨k0, v0⟩ := kv
    simp only [objStringsDet, Bool.and_eq_true] at hd
    by_cases h : k0 = k
    · simp only [assocGet, h, if_true] at hg
      cases hg
      exact hd.1
    · simp only [assocGet, h, if_false] at hg
      exact ih hd.2 hg

/-- Members of a det list are det values. -/
theorem listStringsDet_mem (xs : List Value) (v : Value)
    (hd : listStringsDet xs = true) (hm : v ∈ xs) : valueStringsDet v = true := by
  induction xs with
  | nil => simp at hm
  | cons x rest ih =>
    simp only [listStringsDet, Bool.and_eq_true] at hd
    rcases List.mem_cons.mp hm with rfl | hm2
    · exact hd.1
    · exact ih hd.2 hm2

/-- Formula with a det config is host-independent. -/
theorem transform_formula_det (env2 env3 : Env)
    (value config default source_data : Value)
    (hc : valueStringsDet config = true) :
    transform_formula env2 value config default source_data =
    transform_formula env3 value config default source_data := by
  cases config with
  | null => rfl
  | bool b => rfl
  | int n => rfl
  | str s => rfl
  | arr xs => rfl
  | obj kvs =>
    cases hg : assocGet kvs "expression" with
    | none =>
      simp [transform_formula, configGet, bind, Except.bind, pure, Except.pure, hg]
    | some ev =>
      have hev := objStringsDet_get kvs "expression" ev hc hg
      cases ev with
      | str e =>
        by_cases he : e.isEmpty
        · simp [transform_formula, configGet, bind, Except.bind, pure, Except.pure,
            hg, Value.truthy, he]
        · have ht : (Value.str e).truthy = true := by simp [Value.truthy, he]
          simp only [transform_formula, configGet, bind, Except.bind, hg,
            Option.getD_some, ht, Bool.not_true, Bool.false_eq_true, if_false]
          rw [pyEval_det env2 env3 (some value) true true source_data e hev]
      | null =>
        simp [transform_formula, configGet, bind, Except.bind, pure, Except.pure,
          hg, Value.truthy]
      | bool b =>
        cases b <;>
          simp [transform_formula, configGet, bind, Except.bind, pure, Except.pure,
            hg, Value.truthy]
      | int n =>
        by_cases hn : n = 0 <;>
          simp [transform_formula, configGet, bind, Except.bind, pure, Except.pure,
            hg, Value.truthy, hn]
      | arr ys =>
        by_cases hy : ys.isEmpty <;>
          simp [transform_formula, configGet, bind, Except.bind, pure, Except.pure,
            hg, Value.truthy, hy]
      | obj kvs2 =>
        by_cases hy : kvs2.isEmpty <;>
          simp [transform_formula, configGet, bind, Except.bind, pure, Except.pure,
            hg, Value.truthy, hy]

/-- The default-resolution chain with a det config is host-independent. -/
theorem defaultResolve_det (env2 env3 : Env) (config default source_data : Value)
    (hc : valueStringsDet config = true) :
    defaultResolve env2 config default source_data =
    defaultResolve env3 config default source_data := by
  cases config with
  | null => rfl
  | bool b => rfl
  | int n => rfl
  | str s => rfl
  | arr xs => rfl
  | obj kvs =>
    cases hv : assocGet kvs "value" with
    | some v =>
      simp [defaultResolve, configHasKey, bind, Except.bind, pure, Except.pure, hv]
    | none =>
      cases hf : assocGet kvs "field" with
      | some f =>
        simp [defaultResolve, configHasKey, bind, Except.bind, pure, Except.pure,
          hv, hf]
      | none =>
        cases he : assocGet kvs "expression" with
        | none =>
          simp [defaultResolve, configHasKey, bind, Except.bind, pure, Except.pure,
            hv, hf, he]
        | some ev =>
          have hev := objStringsDet_get kvs "expression" ev hc he
          cases ev with
          | str e =>
            simp only [defaultResolve, configHasKey, bind, Except.bind, hv, hf, he,
              Option.isSome_none, Option.isSome_some, Bool.false_eq_true, if_false,
              if_true, Option.getD_some]
            rw [pyEval_det env2 env3 none true true source_data e hev]
          | null =>
            simp [defaultResolve, configHasKey, bind, Except.bind, pure, Except.pure,
              hv, hf, he]
          | bool b =>
            simp [defaultResolve, configHasKey, bind, Except.bind, pure, Except.pure,
              hv, hf, he]
          | int n =>
            simp [defaultResolve, configHasKey, bind, Except.bind, pure, Except.pure,
              hv, hf, he]
          | arr ys =>
            simp [defaultResolve, configHasKey, bind, Except.bind, pure, Except.pure,
              hv, hf, he]
          | obj kvs2 =>
            simp [defaultResolve, configHasKey, bind, Except.bind, pure, Except.pure,
              hv, hf, he]

/-- Default with a det config is host-independent. -/
theorem transform_default_det (env2 env3 : Env)
    (value config default source_data : Value)
    (hc : valueStringsDet config = true) :
    transform_default env2 value config default source_data =
    transform_default env3 value config default source_data := by
  cases config with
  | null => rfl
  | bool b => rfl
  | int n => rfl
  | str s => rfl
  | arr xs => rfl
  | obj kvs =>
    by_cases hv : isEmptyVal value
    · simp only [transform_default, hv, Bool.not_true, Bool.false_eq_true, if_false]
      exact defaultResolve_det env2 env3 (.obj kvs) default source_data hc
    · simp only [transform_default, Bool.not_eq_true', eq_false_of_ne_true hv]
      cases hg : assocGet kvs "condition" with
      | none =>
        simp [configGet, bind, Except.bind, pure, Except.pure, hg, Value.truthy]
      | some cv =>
        have hcv := objStringsDet_get kvs "condition" cv hc hg
        cases cv with
        | str c =>
          by_cases hce : c.isEmpty
          · simp [configGet, bind, Except.bind, pure, Except.pure, hg,
              Value.truthy, hce]
          · have ht : (Value.str c).truthy = true := by simp [Value.truthy, hce]
            simp only [configGet, bind, Except.bind, hg, Option.getD_some, ht,
              if_true]
            rw [pyEval_det env2 env3 (some value) false false source_data c hcv]
            cases pyEval env3 (some value) false false source_data c with
            | error e => rfl
            | ok r =>
              by_cases hr : r.truthy
              · simp only [hr, if_true]
                exact defaultResolve_det env2 env3 (.obj kvs) default source_data hc
              · simp [hr]
        | null =>
          simp [configGet, bind, Except.bind, pure, Except.pure, hg, Value.truthy]
        | bool b =>
          cases b <;>
            simp [configGet, bind, Except.bind, pure, Except.pure, hg, Value.truthy]
        | int n =>
          by_cases hn : n = 0 <;>
            simp [configGet, bind, Except.bind, pure, Except.pure, hg,
              Value.truthy, hn]
        | arr ys =>
          by_cases hy : ys.isEmpty <;>
            simp [configGet, bind, Except.bind, pure, Except.pure, hg,
              Value.truthy, hy]
        | obj kvs2 =>
          by_cases hy : kvs2.isEmpty <;>
            simp [configGet, bind, Except.bind, pure, Except.pure, hg,
              Value.truthy, hy]

/-- The Conditional loop with det items is host-independent. -/
theorem condLoop_det (env2 env3 : Env) (value source_data evalThen : Value) :
    ∀ (items : List Value) (elseValue : Value),
    listStringsDet items = true →
    condLoop env2 value source_data evalThen items elseValue =
    condLoop env3 value source_data evalThen items elseValue := by
  intro items
  induction items with
  | nil => intro elseValue _; rfl
  | cons c rest ih =>
    intro elseValue hd
    simp only [listStringsDet, Bool.and_eq_true] at hd
    obtain ⟨hcdet, hrest⟩ := hd
    cases c with
    | null => rfl
    | bool b => rfl
    | int n => rfl
    | str s => rfl
    | arr ys => rfl
    | obj kvs =>
      have hifdet : valueStringsDet ((assocGet kvs "if").getD (.str "")) = true := by
        cases hg : assocGet kvs "if" with
        | none => rfl
        | some v => exact objStringsDet_get kvs "if" v hcdet hg
      have hthdet : valueStringsDet ((assocGet kvs "then").getD .null) = true := by
        cases hg : assocGet kvs "then" with
        | none => rfl
        | some v => exact objStringsDet_get kvs "then" v hcdet hg
      simp only [condLoop]
      cases hif : (assocGet kvs "if").getD (.str "") with
      | str ie =>
        have hied : exprDet ie = true := by
          rw [hif] at hifdet
          exact hifdet
        dsimp only
        rw [pyEval_det env2 env3 (some value) false false source_data ie hied]
        cases pyEval env3 (some value) false false source_data ie with
        | error e => exact ih elseValue hrest
        | ok r =>
          by_cases hr : r.truthy
          · simp only [hr, if_true]
            by_cases het : evalThen.truthy
            · simp only [het, if_true]
              cases hth : (assocGet kvs "then").getD .null with
              | str te =>
                have hted : exprDet te = true := by
                  rw [hth] at hthdet
                  exact hthdet
                dsimp only
                rw [pyEval_det env2 env3 (some value) false false source_data te hted]
                cases pyEval env3 (some value) false false source_data te with
                | error e => exact ih elseValue hrest
                | ok tv => rfl
              | null => rfl
              | bool b => rfl
              | int n => rfl
              | arr ys => rfl
              | obj kvs2 => rfl
            · simp only [het, Bool.false_eq_true, if_false]
          · simp only [hr, Bool.false_eq_true, if_false]
            exact ih elseValue hrest
      | null => exact ih elseValue hrest
      | bool b => exact ih elseValue hrest
      | int n => exact ih elseValue hrest
      | arr ys => exact ih elseValue hrest
      | obj kvs2 => exact ih elseValue hrest

/-- Conditional with a det config is host-independent. -/
theorem transform_conditional_det (env2 env3 : Env)
    (value config default source_data : Value)
    (hc : valueStringsDet config = true) :
    transform_conditional env2 value config default source_data =
    transform_conditional env3 value config default source_data := by
  cases config with
  | null => rfl
  | bool b => rfl
  | int n => rfl
  | str s => rfl
  | arr xs => rfl
  | obj kvs =>
    cases hg : assocGet kvs "conditions" with
    | none =>
      simp [transform_conditional, configGet, bind, Except.bind, pure, Except.pure,
        hg, pyIterate, condLoop]
    | some cv =>
      have hcv := objStringsDet_get kvs "conditions" cv hc hg
      cases cv with
      | arr items =>
        simp only [transform_conditional, configGet, bind, Except.bind, hg,
          Option.getD_some, pyIterate]
        exact condLoop_det env2 env3 value source_data _ items _ hcv
      | null =>
        simp [transform_conditional, configGet, bind, Except.bind, pure,
          Except.pure, hg, pyIterate]
      | bool b =>
        simp [transform_conditional, configGet, bind, Except.bind, pure,
          Except.pure, hg, pyIterate]
      | int n =>
        simp [transform_conditional, configGet, bind, Except.bind, pure,
          Except.pure, hg, pyIterate]
      | str s =>
        simp only [transform_conditional, configGet, bind, Except.bind, hg,
          Option.getD_some, pyIterate]
        cases hsd : s.data with
        | nil => rfl
        | cons c0 cs => rfl
      | obj kvs2 =>
        simp only [transform_conditional, configGet, bind, Except.bind, hg,
          Option.getD_some, pyIterate]
        cases kvs2 with
        | nil => rfl
        | cons kv tl => rfl

/-- Any registered non-Lookup transformer invoked with a det config is
host-independent. -/
theorem registered_transformer_det (env2 env3 : Env) (name : String) (cfg : Value)
    (hl : name ≠ "Lookup") (hc : valueStringsDet cfg = true)
    (t : Transformer) (ht : registryGet name = some t) :
    ∀ v d s, t env2 v cfg d s = t env3 v cfg d s := by
  intro v d s
  by_cases h1 : name = "Direct"
  · rw [h1, show registryGet "Direct" = some transform_direct from rfl] at ht
    simp only [Option.some.injEq] at ht
    subst ht
    rfl
  by_cases h2 : name = "Formula"
  · rw [h2, show registryGet "Formula" = some transform_formula from rfl] at ht
    simp only [Option.some.injEq] at ht
    subst ht
    exact transform_formula_det env2 env3 v cfg d s hc
  by_cases h3 : name = "Cast"
  · rw [h3, show registryGet "Cast" = some transform_cast from rfl] at ht
    simp only [Option.some.injEq] at ht
    subst ht
    rfl
  by_cases h4 : name = "Default"
  · rw [h4, show registryGet "Default" = some transform_default from rfl] at ht
    simp only [Option.some.injEq] at ht
    subst ht
    exact transform_default_det env2 env3 v cfg d s hc
  by_cases h5 : name = "Concat"
  · rw [h5, show registryGet "Concat" = some transform_concat from rfl] at ht
    simp only [Option.some.injEq] at ht
    subst ht
    rfl
  by_cases h6 : name = "Split"
  · rw [h6, show registryGet "Split" = some transform_split from rfl] at ht
    simp only [Option.some.injEq] at ht
    subst ht
    rfl
  by_cases h7 : name = "Map"
  · rw [h7, show registryGet "Map" = some transform_map from rfl] at ht
    simp only [Option.some.injEq] at ht
    subst ht
    rfl
  by_cases h8 : name = "Regex"
  · rw [h8, show registryGet "Regex" = some transform_regex from rfl] at ht
    simp only [Option.some.injEq] at ht
    subst ht
    rfl
  by_cases h9 : name = "Conditional"
  · rw [h9, show registryGet "Conditional" = some transform_conditional from rfl] at ht
    simp only [Option.some.injEq] at ht
    subst ht
    exact transform_conditional_det env2 env3 v cfg d s hc
  exfalso
  rw [registryGet] at ht
  simp only [h1, h2, h3, h4, h5, h6, h7, h8, h9, hl, if_false] at ht
  exact Option.noConfusion ht

/-- A rule with an env-free mapping transforms identically under any
two host environments. -/
theorem applyTransform_det (env2 env3 : Env) (src : Doc) (m : Mapping)
    (h : mappingEnvFree m = true) :
    applyTransform env2 src m = applyTransform env3 src m := by
  have hparts : m.transformation ≠ "Lookup" ∧
      valueStringsDet (parseConfig m.transform_config) = true := by
    simpa [mappingEnvFree, bne_iff_ne] using h
  simp only [applyTransform, bind, Except.bind]
  cases ht : get_transformer m.transformation with
  | error e => rfl
  | ok t =>
    have hreg : registryGet m.transformation = some t := by
      rw [get_transformer] at ht
      cases hr : registryGet m.transformation <;> rw [hr] at ht <;> simp at ht
      rw [ht]
    exact registered_transformer_det env2 env3 _ _ hparts.1 hparts.2 t hreg _ _ _

theorem applyMapping_det (env2 env3 : Env) (src acc : Doc) (m : Mapping)
    (h : mappingEnvFree m = true) :
    applyMapping env2 src acc m = applyMapping env3 src acc m := by
  simp only [applyMapping, bind, Except.bind]
  rw [applyTransform_det env2 env3 src m h]

/-- The row loop is host-independent when the transformer is. -/
theorem writeRows_det (env2 env3 : Env) (m : Mapping) (t : Transformer)
    (ht : ∀ v d s, t env2 v (parseConfig m.transform_config) d s =
                   t env3 v (parseConfig m.transform_config) d s) :
    ∀ (items : List Value) (idx : Nat) (rows : List Value),
    writeRows env2 m t items idx rows = writeRows env3 m t items idx rows := by
  intro items
  induction items with
  | nil => intro idx rows; rfl
  | cons item rest ih =>
    intro idx rows
    simp only [writeRows, bind, Except.bind]
    rw [ht (getNestedV item m.source_field) m.default_value item]
    cases t env3 (getNestedV item m.source_field) (parseConfig m.transform_config)
        m.default_value item with
    | error e => rfl
    | ok tv =>
      dsimp only
      cases rows.get? idx with
      | none => rfl
      | some row =>
        dsimp only
        cases setNestedV row m.target_field tv with
        | error e => rfl
        | ok row2 => exact ih (idx + 1) (rows.set idx row2)

theorem applyChildMapping_det (env2 env3 : Env) (src acc : Doc) (m : Mapping)
    (h : mappingEnvFree m = true) :
    applyChildMapping env2 src acc m = applyChildMapping env3 src acc m := by
  have hparts : m.transformation ≠ "Lookup" ∧
      valueStringsDet (parseConfig m.transform_config) = true := by
    simpa [mappingEnvFree, bne_iff_ne] using h
  simp only [applyChildMapping, bind, Except.bind]
  cases getNestedV (.obj src) m.child_source_path with
  | null => rfl
  | bool b => rfl
  | int n => rfl
  | str s => rfl
  | obj kvs => rfl
  | arr srcL =>
    dsimp only
    cases getNestedV (.obj acc) m.child_target_path with
    | bool b => rfl
    | int n => rfl
    | str s => rfl
    | obj kvs => rfl
    | null =>
      dsimp only
      cases setNested acc m.child_target_path
          (.arr (List.replicate srcL.length (Value.obj []))) with
      | error e => rfl
      | ok r1 =>
        dsimp only
        cases ht : get_transformer m.transformation with
        | error e => rfl
        | ok t =>
          dsimp only [pure, Except.pure]
          have hreg : registryGet m.transformation = some t := by
            rw [get_transformer] at ht
            cases hr : registryGet m.transformation <;> rw [hr] at ht <;> simp at ht
            rw [ht]
          rw [writeRows_det env2 env3 m t
            (fun v d s =>
              registered_transformer_det env2 env3 _ _ hparts.1 hparts.2 t hreg v d s)]
    | arr xs =>
      dsimp only
      cases ht : get_transformer m.transformation with
      | error e => rfl
      | ok t =>
        dsimp only [pure, Except.pure]
        have hreg : registryGet m.transformation = some t := by
          rw [get_transformer] at ht
          cases hr : registryGet m.transformation <;> rw [hr] at ht <;> simp at ht
          rw [ht]
        rw [writeRows_det env2 env3 m t
          (fun v d s =>
            registered_transformer_det env2 env3 _ _ hparts.1 hparts.2 t hreg v d s)]

theorem runRules_det (env2 env3 : Env) (src : Doc) :
    ∀ (ms : List Mapping) (acc : Doc), ms.all mappingEnvFree = true →
    runRules env2 src ms acc = runRules env3 src ms acc := by
  intro ms
  induction ms with
  | nil => intro acc _; rfl
  | cons m rest ih =>
    intro acc hall
    simp only [List.all_cons, Bool.and_eq_true] at hall
    by_cases hm : m.is_child_mapping
    · simp only [runRules, hm, if_true]
      exact ih acc hall.2
    · simp only [runRules, hm, Bool.false_eq_true, if_false]
      rw [applyMapping_det env2 env3 src acc m hall.1]
      cases applyMapping env3 src acc m with
      | ok acc2 => exact ih acc2 hall.2
      | error e => rfl

theorem runChildRules_det (env2 env3 : Env) (src : Doc) :
    ∀ (ms : List Mapping) (acc : Doc), ms.all mappingEnvFree = true →
    runChildRules env2 src ms acc = runChildRules env3 src ms acc := by
  intro ms
  induction ms with
  | nil => intro acc _; rfl
  | cons m rest ih =>
    intro acc hall
    simp only [List.all_cons, Bool.and_eq_true] at hall
    by_cases hm : m.is_child_mapping
    · simp only [runChildRules, hm, if_true]
      rw [applyChildMapping_det env2 env3 src acc m hall.1]
      cases applyChildMapping env3 src acc m with
      | ok acc2 => exact ih acc2 hall.2
      | error e => rfl
    · simp only [runChildRules, hm, Bool.false_eq_true, if_false]
      exact ih acc hall.2

/-- C9: when no rule uses the Lookup kind (the Entity Resolver) and no
expression in any rule's parsed config is a `now*` helper call or a
reach into the `frappe` module, `transform` yields the same target
document under any two host environments — in particular two runs of
the same specification on the same source at different times (different
clock, different database) produce identical targets. -/
theorem C9_transform_det (env2 env3 : Env) (fm : FieldMapper) (src : Doc)
    (h : fm.mappings.all mappingEnvFree = true) :
    FieldMapper.transform env2 fm src = FieldMapper.transform env3 fm src := by
  rw [FieldMapper.transform, FieldMapper.transform, transformTrace, transformTrace]
  by_cases he : fm.mappings.isEmpty
  · simp [he]
  · simp only [he, Bool.false_eq_true, if_false]
    rw [runRules_det env2 env3 src fm.mappings [] h]
    rcases hr : runRules env3 src fm.mappings [] with ⟨d, oe⟩
    cases oe with
    | some e => rfl
    | none =>
      dsimp only
      rw [runChildRules_det env2 env3 src fm.mappings d h]

/-- C9 witness: a Direct rule and a Formula rule whose expression is
`value`, run under two observably different host environments. -/
theorem C9_witness :
    FieldMapper.transform env0
      ⟨[{ source_field := "x", target_field := "a",
          transform_config := some "\x7b\"strip\": true\x7d" },
        { source_field := "y", target_field := "b", transformation := "Formula",
          transform_config := some "\x7b\"expression\": \"value\"\x7d" }]⟩
      [("x", Value.str " v "), ("y", Value.int 7)]
    = FieldMapper.transform env1
      ⟨[{ source_field := "x", target_field := "a",
          transform_config := some "\x7b\"strip\": true\x7d" },
        { source_field := "y", target_field := "b", transformation := "Formula",
          transform_config := some "\x7b\"expression\": \"value\"\x7d" }]⟩
      [("x", Value.str " v "), ("y", Value.int 7)] :=
  C9_transform_det env0 env1
    ⟨[{ source_field := "x", target_field := "a",
        transform_config := some "\x7b\"strip\": true\x7d" },
      { source_field := "y", target_field := "b", transformation := "Formula",
        transform_config := some "\x7b\"expression\": \"value\"\x7d" }]⟩
    [("x", Value.str " v "), ("y", Value.int 7)] rfl
